import Mathlib

/-!
Verification of the durable transcription job queue of `gammawave/python`
(`job_queue.py` and the job endpoints of `jobs_api.py`).

The embedding models the filesystem store as an association list from job
directory names to directory contents, the dispatch queue as a list of job
ids, and each operation of `TranscriptionJobQueue` as a pure function over
that state.  Timestamps (`datetime.now()` / `datetime.utcnow()`) are passed
in as string parameters.  JSON record files are modelled at the level of
their parsed field structure (`JobData`); an unreadable status value makes
parsing fail, mirroring the `except` branch of `_read_job`.
-/

namespace Gammawave

/-- `JobStatus` enum of `job_queue.py`. -/
inductive JobStatus where
  | pending
  | processing
  | completed
  | failed
deriving DecidableEq, Repr

/-- The string value of a `JobStatus` member (Python `str` enum `.value`). -/
def JobStatus.value : JobStatus → String
  | .pending => "pending"
  | .processing => "processing"
  | .completed => "completed"
  | .failed => "failed"

/-- Python `str.lower()` (ASCII), mapped structurally over the characters
so that concrete instances evaluate inside the kernel. -/
def strLower (s : String) : String := ⟨s.data.map Char.toLower⟩

/-- Characters removed by Python `str.strip()`. -/
def pyWs (c : Char) : Bool :=
  c = ' ' || c = '\t' || c = '\n' || c = '\r' || c = '\x0b' || c = '\x0c'

/-- Python `str.strip()`: drop whitespace from both ends. -/
def pyStrip (s : String) : String :=
  ⟨((s.data.dropWhile pyWs).reverse.dropWhile pyWs).reverse⟩

/-- Python `str.startswith(p)`. -/
def strStartsWith (s p : String) : Bool := decide (p.data <+: s.data)

/-- `JobStatus(raw)` construction: `some` member with that value, otherwise
`none` (Python raises `ValueError`, which `_read_job` catches). -/
def JobStatus.ofString : String → Option JobStatus
  | "pending" => some .pending
  | "processing" => some .processing
  | "completed" => some .completed
  | "failed" => some .failed
  | _ => none

/-- `JobRecord` dataclass of `job_queue.py`. -/
structure JobRecord where
  id : String
  status : JobStatus
  created_at : String
  updated_at : String
  provider : String := "gemini"
  audio_path : Option String := none
  result_path : Option String := none
  title : Option String := none
  summary : Option String := none
  error : Option String := none
deriving DecidableEq, Repr

/-- Parsed content of a `job.json` file: each key of the serialized dict,
`none` when the key is absent (or JSON `null`). -/
structure JobData where
  id : Option String := none
  status : Option String := none
  created_at : Option String := none
  updated_at : Option String := none
  provider : Option String := none
  audio_path : Option String := none
  result_path : Option String := none
  title : Option String := none
  summary : Option String := none
  error : Option String := none
deriving DecidableEq, Repr

/-- `JobRecord.to_dict`: `asdict(self)` with `status` replaced by its value. -/
def JobRecord.to_dict (r : JobRecord) : JobData :=
  { id := some r.id
    status := some r.status.value
    created_at := some r.created_at
    updated_at := some r.updated_at
    provider := some r.provider
    audio_path := r.audio_path
    result_path := r.result_path
    title := r.title
    summary := r.summary
    error := r.error }

/-- Body of `_read_job` after a successful `json.load`: normalize the raw
status (`(data.get("status") or "").lower()`, legacy `"queued"` mapped to
`"pending"`, empty mapped to `"pending"`), build the record with per-field
defaults.  `now` stands for `datetime.utcnow().isoformat()` used as the
default for missing timestamps.  Result `none` models the caught
`ValueError` of `JobStatus(...)` on an unknown status value. -/
def readJobData (now : String) (job_id : String) (data : JobData) : Option JobRecord :=
  let raw0 := strLower (data.status.getD "")
  let raw1 := if raw0 = "queued" then "pending" else raw0
  match JobStatus.ofString (if raw1 = "" then "pending" else raw1) with
  | none => none
  | some st =>
      some { id := job_id
             status := st
             created_at := data.created_at.getD now
             updated_at := data.updated_at.getD now
             provider := data.provider.getD "gemini"
             audio_path := data.audio_path
             result_path := data.result_path
             title := data.title
             summary := data.summary
             error := data.error }

/-- One speech segment as stored inside `transcription.json`
(`seg.dict()` of the transcriber's `SpeechSegment` pydantic model). -/
structure SegmentData where
  content : Option String := none
  start_time : Option String := none
  end_time : Option String := none
  speaker : Option String := none
deriving DecidableEq, Repr

/-- Parsed content of a `transcription.json` result file. -/
structure ResultData where
  title : Option String := none
  summary : Option String := none
  speech_segments : Option (List SegmentData) := none
deriving DecidableEq, Repr

/-- `SpeechSegment` pydantic model of `gemini_transcriber.py`. -/
structure SpeechSegment where
  content : String
  start_time : String
  end_time : String
  speaker : String
deriving DecidableEq, Repr

/-- `seg.dict()` of a `SpeechSegment`. -/
def SpeechSegment.dict (s : SpeechSegment) : SegmentData :=
  { content := some s.content
    start_time := some s.start_time
    end_time := some s.end_time
    speaker := some s.speaker }

/-- `GeminiTranscriptionResponse` pydantic model: output of
`GeminiAudioTranscriber.transcribe_audio`. -/
structure GeminiTranscriptionResponse where
  title : String
  speech_segments : List SpeechSegment
  summary : String
deriving DecidableEq, Repr

/-- Contents of one job directory under the recordings root. -/
structure JobDir where
  meta : Option JobData := none
  result : Option ResultData := none
  summary_txt : Option String := none
deriving DecidableEq, Repr

/-- The empty job directory (freshly created by `mkdir`). -/
def JobDir.empty : JobDir := {}

/-- State of the queue subsystem: the job store (directory name to
directory contents), the in-memory dispatch queue of job ids, and the set
of audio file paths existing on disk. -/
structure SysState where
  dirs : List (String × JobDir) := []
  queue : List String := []
  audioFiles : List String := []
deriving DecidableEq, Repr

/-- The initial state: empty store, empty queue, no audio files. -/
def SysState.init : SysState := {}

/-- `config.recordings_dir`, the store root (`_jobs_dir`). -/
def recordingsDir : String := "recordings"

/-- `_job_dir(job_id)`: the job's directory path. -/
def jobDirPath (job_id : String) : String := recordingsDir ++ "/" ++ job_id

/-- `_job_meta_path(job_id)`: the job's `job.json` path. -/
def jobMetaPath (job_id : String) : String := jobDirPath job_id ++ "/job.json"

/-- Filesystem directory lookup by name (first match). -/
def dirLookup : List (String × JobDir) → String → Option JobDir
  | [], _ => none
  | p :: rest, id => if p.1 = id then some p.2 else dirLookup rest id

/-- Overwrite the directory named `id` (creating it when absent). -/
def setDir (dirs : List (String × JobDir)) (id : String) (d : JobDir) :
    List (String × JobDir) :=
  if (dirLookup dirs id).isSome then
    dirs.map (fun p => if p.1 = id then (id, d) else p)
  else
    (id, d) :: dirs

/-- Remove the directory named `id` (recursive delete). -/
def removeDir (dirs : List (String × JobDir)) (id : String) :
    List (String × JobDir) :=
  dirs.filter (fun p => p.1 ≠ id)

/-- The `job.json` content of job `id`, when the directory and file exist. -/
def dirMeta (s : SysState) (id : String) : Option JobData :=
  (dirLookup s.dirs id).bind (·.meta)

/-- `_write_job(record)`: create the job directory if needed and overwrite
its `job.json` with `record.to_dict()`. -/
def write_job (s : SysState) (r : JobRecord) : SysState :=
  let d := (dirLookup s.dirs r.id).getD JobDir.empty
  { s with dirs := setDir s.dirs r.id { d with meta := some r.to_dict } }

/-- `_read_job(job_id)`: `none` when the directory or `job.json` is absent,
otherwise parse per `readJobData`. -/
def read_job (now : String) (s : SysState) (job_id : String) : Option JobRecord :=
  match dirLookup s.dirs job_id with
  | none => none
  | some d =>
      match d.meta with
      | none => none
      | some data => readJobData now job_id data

/-- Insert a directory into a list kept sorted by name descending.  Names
are compared lexicographically by code point (`.data`), matching Python
string comparison. -/
def insertDesc (p : String × JobDir) : List (String × JobDir) → List (String × JobDir)
  | [] => [p]
  | q :: rest => if q.1.data ≤ p.1.data then p :: q :: rest else q :: insertDesc p rest

/-- `sorted(base.iterdir(), key=lambda x: x.name, reverse=True)`: the
directory listing sorted by name descending, written as a structural
insertion sort so that concrete listings evaluate inside the kernel. -/
def sortDirsDesc : List (String × JobDir) → List (String × JobDir)
  | [] => []
  | p :: rest => insertDesc p (sortDirsDesc rest)

/-- `_list_jobs()`: iterate the store root sorted by directory name in
reverse, keep each child holding a `job.json` that parses. -/
def list_jobs (now : String) (s : SysState) : List JobRecord :=
  (sortDirsDesc s.dirs).filterMap (fun p =>
    match p.2.meta with
    | none => none
    | some data => readJobData now p.1 data)

/-- Last path component (`Path.name`). -/
def baseName (p : String) : String := ⟨(p.data.reverse.takeWhile (· ≠ '/')).reverse⟩

/-- Observable actions of `enqueue`, in execution order (used to state the
write-before-enqueue guarantee). -/
inductive Action where
  | mkdirJobDir (id : String)
  | moveAudio (src dest : String)
  | writeRecord (id : String)
  | pushQueue (id : String)
deriving DecidableEq, Repr

/-- Result of `enqueue`: the new state, the returned record, and the
ordered action trace. -/
structure EnqueueOut where
  state : SysState
  record : JobRecord
  trace : List Action
deriving Repr

/-- `enqueue(audio_path, provider)`.  `job_id` models
`datetime.now().strftime("%Y-%m-%d_%H-%M-%S")` and `nowIso` the same
instant's `isoformat()`.  The audio file is moved into the job directory
(`Path.replace`; the cross-filesystem copy fallback is not modelled — the
move is taken to succeed), the pending record is written, and the id is
pushed onto the dispatch queue. -/
def enqueue (job_id nowIso : String) (s : SysState) (audio_path : String)
    (provider : String) : EnqueueOut :=
  let s1 : SysState :=
    { s with dirs := if (dirLookup s.dirs job_id).isSome then s.dirs
                     else (job_id, JobDir.empty) :: s.dirs }
  let dest_audio := jobDirPath job_id ++ "/" ++ baseName audio_path
  let s2 : SysState :=
    if audio_path ≠ dest_audio then
      { s1 with audioFiles := dest_audio :: s1.audioFiles.filter (· ≠ audio_path) }
    else s1
  let record : JobRecord :=
    { id := job_id
      status := .pending
      created_at := nowIso
      updated_at := nowIso
      provider := provider
      audio_path := some dest_audio }
  let s3 := write_job s2 record
  let s4 : SysState := { s3 with queue := s3.queue ++ [job_id] }
  { state := s4
    record := record
    trace := .mkdirJobDir job_id ::
      ((if audio_path ≠ dest_audio then [Action.moveAudio audio_path dest_audio] else []) ++
       [Action.writeRecord job_id, Action.pushQueue job_id]) }

/-- `get_job_dir(job_id)`: the resolved job directory when it exists and
resolves inside the recordings root.  Path resolution is modelled as the
identity, under which `base/job_id` always starts with `base`; the
`startswith` guard is kept literally. -/
def get_job_dir (s : SysState) (job_id : String) : Option String :=
  let candidate := jobDirPath job_id
  if strStartsWith candidate recordingsDir then
    if (dirLookup s.dirs job_id).isSome then some candidate else none
  else none

/-- `delete_job(job_id)`: `.ok (s, false)` models `return False`,
`.error msg` models the raised `RuntimeError`, `.ok (s', true)` removes the
job directory recursively (including its audio files). -/
def delete_job (now : String) (s : SysState) (job_id : String) :
    Except String (SysState × Bool) :=
  match read_job now s job_id with
  | none => .ok (s, false)
  | some record =>
      if record.status = .pending ∨ record.status = .processing then
        .error "Job is in progress and cannot be deleted"
      else
        match get_job_dir s job_id with
        | none => .ok (s, false)
        | some _ =>
            .ok ({ s with
                    dirs := removeDir s.dirs job_id
                    audioFiles := s.audioFiles.filter
                      (fun f => !(strStartsWith f (jobDirPath job_id ++ "/"))) },
                 true)

/-- Errors surfaced by the `jobs_api.py` endpoints: 404, the 409 conflict
on delete, and the 400 invalid-state rejections of retry. -/
inductive ApiError where
  | notFound
  | conflict (msg : String)
  | invalidState (msg : String)
deriving DecidableEq, Repr

/-- `DELETE /transcription_jobs/{job_id}` (`jobs_api.delete_job`): a
`False` result becomes 404, a `RuntimeError` becomes a 409 conflict. -/
def api_delete_job (now : String) (s : SysState) (job_id : String) :
    Except ApiError SysState :=
  match delete_job now s job_id with
  | .error e => .error (.conflict e)
  | .ok (_, false) => .error .notFound
  | .ok (s', true) => .ok s'

/-- Store the transcription artifacts (`transcription.json`, `summary.txt`)
into the job's directory. -/
def setResult (s : SysState) (id : String) (res : ResultData) (sum : String) :
    SysState :=
  { s with dirs := s.dirs.map (fun p =>
      if p.1 = id then (p.1, { p.2 with result := some res, summary_txt := some sum })
      else p) }

/-- `_process_one(job_id)`.  `transcribe` is the Transcription Service
collaborator (`transcriber.transcribe_audio`), the sole failure source
modelled; `.error e` stands for any raised exception with message
`str(e)`.  `now` stands for the `datetime.utcnow().isoformat()` calls. -/
def process_one (now : String)
    (transcribe : Option String → Except String GeminiTranscriptionResponse)
    (s : SysState) (job_id : String) : SysState :=
  match read_job now s job_id with
  | none => s
  | some record =>
      let record1 : JobRecord := { record with status := .processing, updated_at := now }
      let s1 := write_job s record1
      match transcribe record.audio_path with
      | .ok result =>
          let resData : ResultData :=
            { title := some result.title
              summary := some result.summary
              speech_segments := some (result.speech_segments.map SpeechSegment.dict) }
          let summaryTxt :=
            "Title: " ++ result.title ++ "\n\nSummary:\n" ++ result.summary
          let s2 := setResult s1 job_id resData summaryTxt
          let record2 : JobRecord :=
            { record1 with
                status := .completed
                result_path := some (jobDirPath job_id ++ "/transcription.json")
                title := some result.title
                summary := some result.summary
                updated_at := now }
          write_job s2 record2
      | .error e =>
          let record2 : JobRecord :=
            { record1 with status := .failed, error := some e, updated_at := now }
          write_job s1 record2

/-- One iteration of `worker_loop`: pop with timeout (an empty queue is the
`TimeoutError` / `continue` case), then `_process_one` the popped id. -/
def workerStep (now : String)
    (transcribe : Option String → Except String GeminiTranscriptionResponse)
    (s : SysState) : SysState :=
  match s.queue with
  | [] => s
  | job_id :: rest => process_one now transcribe { s with queue := rest } job_id

/-- `worker_loop` run for `n` iterations (a total function: no per-job
failure escapes an iteration). -/
def workerRun (now : String)
    (transcribe : Option String → Except String GeminiTranscriptionResponse)
    (s : SysState) : Nat → SysState
  | 0 => s
  | n + 1 => workerRun now transcribe (workerStep now transcribe s) n

/-- `start()` recovery: for each listed job whose status is pending or
processing, push its id onto the dispatch queue, in listing order. -/
def start_recovery (now : String) (s : SysState) : SysState :=
  { s with queue := s.queue ++
      ((list_jobs now s).filter
        (fun j => j.status = .pending ∨ j.status = .processing)).map (·.id) }

/-- `read_job_result(job_id)`: parsed `transcription.json`, `none` when the
file is absent or unparsable. -/
def read_job_result (s : SysState) (job_id : String) : Option ResultData :=
  (dirLookup s.dirs job_id).bind (·.result)

/-- Python substring test `needle in hay`. -/
def strContains (hay needle : String) : Bool :=
  decide (needle.data <:+: hay.data)

/-- One entry of a `search` result
(`{"job_id": ..., "title": ..., "summary": ...}`). -/
structure SearchEntry where
  job_id : String
  title : Option String
  summary : Option String
deriving DecidableEq, Repr

/-- Per-segment scan of the `else` branch of `search`: some segment's
content contains the query. -/
def segMatch (q : String) (segs : List SegmentData) : Bool :=
  segs.any (fun seg => strContains (strLower (seg.content.getD "")) q)

/-- The per-job body of the `search` loop: skip jobs without a readable
result, match the lowered title/summary and, failing that, the segments;
on a match produce the lightweight entry. -/
def searchJob (q : String) (s : SysState) (job : JobRecord) : Option SearchEntry :=
  match read_job_result s job.id with
  | none => none
  | some data =>
      let title := strLower (data.title.getD "")
      let summary := strLower (data.summary.getD "")
      let segments := data.speech_segments.getD []
      let mtch :=
        if strContains title q || strContains summary q then true
        else segMatch q segments
      if mtch then some { job_id := job.id, title := data.title, summary := data.summary }
      else none

/-- `search(query)`: strip and lower the query, return `[]` when it is
empty, otherwise scan every listed job. -/
def search (now : String) (s : SysState) (query : String) : List SearchEntry :=
  let q := strLower (pyStrip query)
  if q = "" then []
  else (list_jobs now s).filterMap (searchJob q s)

/-- `get_job(job_id)`: read-through to the store. -/
def get_job (now : String) (s : SysState) (job_id : String) : Option JobRecord :=
  read_job now s job_id

/-- Modelled from the spec: `TranscriptionJobQueue.retry_job` is invoked by
`jobs_api.retry_job` but is absent from `job_queue.py`; per the spec's
`retry(id)` it resets the status to `pending`, clears `error`, persists the
record, and pushes the id onto the dispatch queue again (rewriting
`updated_at`, which the spec requires on every state transition), returning
the updated record.  A missing record surfaces as not-found. -/
def retry_job (now : String) (s : SysState) (job_id : String) :
    Except ApiError (SysState × JobRecord) :=
  match read_job now s job_id with
  | none => .error .notFound
  | some record =>
      let record1 : JobRecord :=
        { record with status := .pending, error := none, updated_at := now }
      let s1 := write_job s record1
      .ok ({ s1 with queue := s1.queue ++ [job_id] }, record1)

/-- `POST /transcription_jobs/{job_id}/retry` (`jobs_api.retry_job`): 404
when the record is absent, 400 when the status is not `failed`, 400 when
`audio_path` is falsy (`None` or empty), otherwise delegate to the queue's
retry. -/
def api_retry_job (now : String) (s : SysState) (job_id : String) :
    Except ApiError (SysState × JobRecord) :=
  match read_job now s job_id with
  | none => .error .notFound
  | some record =>
      if record.status.value ≠ "failed" then
        .error (.invalidState "Only failed jobs can be retried")
      else if record.audio_path.getD "" = "" then
        .error (.invalidState "Job audio file not found")
      else
        retry_job now s job_id

/-- Primitive filesystem events of a record-file write, used to state the
atomicity claim about `_write_job`. -/
inductive FsEvent where
  | truncate (path : String)
  | writeData (path : String) (data : String)
  | rename (src dst : String)
deriving DecidableEq, Repr

/-- The filesystem event sequence of `_write_job` for job `id` with
serialized record content `content`: `open(path, "w")` truncates the record
file in place, then `json.dump` writes the serialization.  No temporary
file and no rename occur. -/
def writeJobFsTrace (id : String) (content : String) : List FsEvent :=
  [.truncate (jobMetaPath id), .writeData (jobMetaPath id) content]

/-- Content of a single file after one event (events for other paths leave
it unchanged). -/
def applyFsEvent (path : String) (cur : String) : FsEvent → String
  | .truncate p => if p = path then "" else cur
  | .writeData p d => if p = path then cur ++ d else cur
  | .rename _ _ => cur

/-- Every content of `path` a concurrent reader can observe while the trace
executes: the contents before, between and after the events. -/
def observeStates (path : String) (initial : String) : List FsEvent → List String
  | [] => [initial]
  | e :: rest => initial :: observeStates path (applyFsEvent path initial e) rest

/-- The trace renames some file onto `path` (temp-file-and-rename
mechanism). -/
def renamesOnto (trace : List FsEvent) (path : String) : Prop :=
  ∃ tmp, FsEvent.rename tmp path ∈ trace

/-! ## Store lemmas -/

theorem readJobData_to_dict (now id : String) (r : JobRecord) :
    readJobData now id r.to_dict = some { r with id := id } := by
  cases r with
  | mk rid st c u p a rp t sm e => cases st <;> rfl

theorem dirLookup_nil (id : String) : dirLookup [] id = none := rfl

theorem dirLookup_cons (p : String × JobDir) (rest : List (String × JobDir))
    (id : String) :
    dirLookup (p :: rest) id = if p.1 = id then some p.2 else dirLookup rest id := rfl

theorem dirLookup_map_replace (dirs : List (String × JobDir)) (id : String)
    (d : JobDir) (h : (dirLookup dirs id).isSome) :
    dirLookup (dirs.map (fun p => if p.1 = id then (id, d) else p)) id = some d := by
  induction dirs with
  | nil => simp [dirLookup_nil] at h
  | cons p rest ih =>
    by_cases hp : p.1 = id
    · simp [List.map_cons, dirLookup_cons, hp]
    · rw [dirLookup_cons, if_neg hp] at h
      rw [List.map_cons, if_neg hp, dirLookup_cons, if_neg hp]
      exact ih h

theorem dirLookup_map_replace_ne (dirs : List (String × JobDir))
    (id id' : String) (d : JobDir) (h : id' ≠ id) :
    dirLookup (dirs.map (fun p => if p.1 = id then (id, d) else p)) id' =
      dirLookup dirs id' := by
  induction dirs with
  | nil => rfl
  | cons p rest ih =>
    by_cases hp : p.1 = id
    · have hp' : p.1 ≠ id' := by rw [hp]; exact fun hh => h hh.symm
      rw [List.map_cons, if_pos hp, dirLookup_cons, dirLookup_cons, if_neg hp']
      rw [if_neg (fun hh : (id, d).1 = id' => h hh.symm)]
      exact ih
    · rw [List.map_cons, if_neg hp, dirLookup_cons, dirLookup_cons]
      by_cases hq : p.1 = id'
      · rw [if_pos hq, if_pos hq]
      · rw [if_neg hq, if_neg hq]; exact ih

theorem dirLookup_setDir_self (dirs : List (String × JobDir)) (id : String)
    (d : JobDir) : dirLookup (setDir dirs id d) id = some d := by
  unfold setDir
  cases h : (dirLookup dirs id).isSome with
  | true => simpa [h] using dirLookup_map_replace dirs id d h
  | false => simp [h, dirLookup_cons]

theorem dirLookup_setDir_ne (dirs : List (String × JobDir)) (id id' : String)
    (d : JobDir) (h : id' ≠ id) :
    dirLookup (setDir dirs id d) id' = dirLookup dirs id' := by
  unfold setDir
  cases hs : (dirLookup dirs id).isSome with
  | true => simpa [hs] using dirLookup_map_replace_ne dirs id id' d h
  | false =>
    simp only [hs, Bool.false_eq_true, if_false]
    rw [dirLookup_cons, if_neg (fun hh : (id, d).1 = id' => h hh.symm)]

theorem dirLookup_removeDir_self (dirs : List (String × JobDir)) (id : String) :
    dirLookup (removeDir dirs id) id = none := by
  induction dirs with
  | nil => rfl
  | cons p rest ih =>
    unfold removeDir at ih ⊢
    rw [List.filter_cons]
    by_cases hp : p.1 = id
    · rw [if_neg (by simp [hp])]; exact ih
    · rw [if_pos (by simp [hp]), dirLookup_cons, if_neg hp]; exact ih

theorem dirLookup_removeDir_ne (dirs : List (String × JobDir)) (id id' : String)
    (h : id' ≠ id) : dirLookup (removeDir dirs id) id' = dirLookup dirs id' := by
  induction dirs with
  | nil => rfl
  | cons p rest ih =>
    unfold removeDir at ih ⊢
    rw [List.filter_cons]
    by_cases hp : p.1 = id
    · have hp' : p.1 ≠ id' := by rw [hp]; exact fun hh => h hh.symm
      rw [if_neg (by simp [hp]), dirLookup_cons, if_neg hp']
      exact ih
    · rw [if_pos (by simp [hp]), dirLookup_cons, dirLookup_cons]
      by_cases hq : p.1 = id'
      · rw [if_pos hq, if_pos hq]
      · rw [if_neg hq, if_neg hq]; exact ih

theorem read_job_eq (now : String) (s : SysState) (id : String) :
    read_job now s id = (dirMeta s id).bind (readJobData now id) := by
  unfold read_job dirMeta
  cases h1 : dirLookup s.dirs id with
  | none => rfl
  | some d =>
    cases h2 : d.meta with
    | none => simp [h2]
    | some data => simp [h2]

theorem dirMeta_write_job_self (s : SysState) (r : JobRecord) :
    dirMeta (write_job s r) r.id = some r.to_dict := by
  unfold dirMeta write_job
  simp [dirLookup_setDir_self]

theorem dirMeta_write_job_ne (s : SysState) (r : JobRecord) (id : String)
    (h : id ≠ r.id) : dirMeta (write_job s r) id = dirMeta s id := by
  unfold dirMeta write_job
  simp [dirLookup_setDir_ne _ _ _ _ h]

theorem read_job_write_job_self (now : String) (s : SysState) (r : JobRecord) :
    read_job now (write_job s r) r.id = some r := by
  rw [read_job_eq, dirMeta_write_job_self]
  simp [readJobData_to_dict]

theorem read_job_write_job_ne (now : String) (s : SysState) (r : JobRecord)
    (id : String) (h : id ≠ r.id) :
    read_job now (write_job s r) id = read_job now s id := by
  rw [read_job_eq, read_job_eq, dirMeta_write_job_ne s r id h]

theorem readJobData_id (now job_id : String) (data : JobData) (r : JobRecord)
    (h : readJobData now job_id data = some r) : r.id = job_id := by
  unfold readJobData at h
  dsimp only at h
  split at h
  · exact absurd h (by simp)
  · simp only [Option.some.injEq] at h
    rw [← h]

theorem read_job_id (now : String) (s : SysState) (id : String) (r : JobRecord)
    (h : read_job now s id = some r) : r.id = id := by
  rw [read_job_eq] at h
  cases hm : dirMeta s id with
  | none => rw [hm] at h; exact absurd h (by simp)
  | some data =>
    rw [hm] at h
    simp only [Option.some_bind] at h
    exact readJobData_id now id data r h

/-! ## C9: read absence and legacy status normalization -/

/-- C9: `read_job` returns absence when the job's directory or its record
file does not exist, and a stored record whose status field spells the
legacy value `"queued"` (in any letter case) is returned with status
normalized to `pending`. -/
theorem read_job_absent_and_legacy (now : String) (s : SysState) (id : String) :
    (dirLookup s.dirs id = none → read_job now s id = none) ∧
    (∀ d, dirLookup s.dirs id = some d → d.meta = none → read_job now s id = none) ∧
    (∀ data st, dirMeta s id = some data → data.status = some st →
      strLower st = "queued" →
      ∃ r, read_job now s id = some r ∧ r.status = .pending) := by
  refine ⟨?_, ?_, ?_⟩
  · intro h
    rw [read_job_eq]
    unfold dirMeta
    rw [h]
    rfl
  · intro d hd hm
    rw [read_job_eq]
    unfold dirMeta
    rw [hd]
    simp [hm]
  · intro data st hm hst hlow
    rw [read_job_eq, hm]
    simp only [Option.some_bind]
    unfold readJobData
    rw [hst]
    simp only [Option.getD_some, hlow]
    exact ⟨_, rfl, rfl⟩

/-- A record file carrying the legacy status spelling. -/
def legacyData : JobData :=
  { status := some "Queued"
    created_at := some "2024-01-01T00:00:00"
    updated_at := some "2024-01-01T00:00:00"
    audio_path := some "recordings/2024-01-01_00-00-00/a.wav" }

/-- A store holding one job whose record file carries the legacy status
spelling, for exercising the read path on concrete input. -/
def legacyState : SysState :=
  { dirs := [("2024-01-01_00-00-00", { meta := some legacyData })] }

/-- Witness for C9 at a concrete store. -/
theorem read_job_absent_and_legacy_witness :
    (dirLookup legacyState.dirs "missing" = none ∧
      read_job "t0" legacyState "missing" = none) ∧
    (dirMeta legacyState "2024-01-01_00-00-00" = some legacyData ∧
      ∃ r, read_job "t0" legacyState "2024-01-01_00-00-00" = some r ∧
        r.status = .pending) := by
  refine ⟨⟨by decide, ?_⟩, ⟨by decide, ?_⟩⟩
  · exact (read_job_absent_and_legacy "t0" legacyState "missing").1 (by decide)
  · exact (read_job_absent_and_legacy "t0" legacyState "2024-01-01_00-00-00").2.2
      legacyData "Queued" (by decide) (by decide) (by decide)

/-! ## C2: enqueue writes a pending record before pushing, moves the audio -/

theorem enqueue_record_def (job_id nowIso : String) (s : SysState)
    (audio_path provider : String) :
    (enqueue job_id nowIso s audio_path provider).record =
      { id := job_id, status := .pending, created_at := nowIso, updated_at := nowIso
        provider := provider
        audio_path := some (jobDirPath job_id ++ "/" ++ baseName audio_path) } := rfl

theorem enqueue_state_meta (job_id nowIso : String) (s : SysState)
    (audio_path provider : String) :
    dirMeta (enqueue job_id nowIso s audio_path provider).state job_id =
      some (enqueue job_id nowIso s audio_path provider).record.to_dict := by
  unfold enqueue write_job dirMeta
  dsimp only
  split
  · simp [dirLookup_setDir_self]
  · simp [dirLookup_setDir_self]

theorem enqueue_read_back (job_id nowIso now : String) (s : SysState)
    (audio_path provider : String) :
    read_job now (enqueue job_id nowIso s audio_path provider).state job_id =
      some (enqueue job_id nowIso s audio_path provider).record := by
  rw [read_job_eq, enqueue_state_meta]
  simp only [Option.some_bind]
  rw [readJobData_to_dict, enqueue_record_def]

theorem enqueue_state_queue (job_id nowIso : String) (s : SysState)
    (audio_path provider : String) :
    (enqueue job_id nowIso s audio_path provider).state.queue =
      s.queue ++ [job_id] := by
  unfold enqueue write_job
  dsimp only
  split <;> rfl

theorem enqueue_state_audioFiles (job_id nowIso : String) (s : SysState)
    (audio_path provider : String)
    (hne : audio_path ≠ jobDirPath job_id ++ "/" ++ baseName audio_path) :
    (enqueue job_id nowIso s audio_path provider).state.audioFiles =
      (jobDirPath job_id ++ "/" ++ baseName audio_path) ::
        s.audioFiles.filter (· ≠ audio_path) := by
  unfold enqueue write_job
  dsimp only
  rw [if_pos hne]

theorem enqueue_trace_def (job_id nowIso : String) (s : SysState)
    (audio_path provider : String)
    (hne : audio_path ≠ jobDirPath job_id ++ "/" ++ baseName audio_path) :
    (enqueue job_id nowIso s audio_path provider).trace =
      [Action.mkdirJobDir job_id,
       Action.moveAudio audio_path (jobDirPath job_id ++ "/" ++ baseName audio_path),
       Action.writeRecord job_id, Action.pushQueue job_id] := by
  unfold enqueue
  dsimp only
  rw [if_pos hne]
  rfl

/-- C2: `enqueue` persists the pending record strictly before pushing the
job id onto the dispatch queue; immediately afterwards reading the id
yields exactly the returned record, with status `pending` and an
`audio_path` inside the job's own directory; the audio file now exists
there and no longer at its original path.  The hypothesis is the source's
own move guard: the original path differs from the destination inside the
job's directory. -/
theorem enqueue_spec (job_id nowIso now : String) (s : SysState)
    (audio_path provider : String)
    (hne : audio_path ≠ jobDirPath job_id ++ "/" ++ baseName audio_path) :
    (∃ pre mid post,
        (enqueue job_id nowIso s audio_path provider).trace =
          pre ++ [Action.writeRecord job_id] ++ mid ++ [Action.pushQueue job_id] ++ post) ∧
    read_job now (enqueue job_id nowIso s audio_path provider).state job_id =
      some (enqueue job_id nowIso s audio_path provider).record ∧
    (enqueue job_id nowIso s audio_path provider).record.status = .pending ∧
    (∃ fname,
        (enqueue job_id nowIso s audio_path provider).record.audio_path =
          some (jobDirPath job_id ++ "/" ++ fname) ∧
        (jobDirPath job_id ++ "/" ++ fname) ∈
          (enqueue job_id nowIso s audio_path provider).state.audioFiles) ∧
    audio_path ∉ (enqueue job_id nowIso s audio_path provider).state.audioFiles ∧
    (enqueue job_id nowIso s audio_path provider).state.queue = s.queue ++ [job_id] := by
  refine ⟨?_, enqueue_read_back job_id nowIso now s audio_path provider, rfl, ?_, ?_, ?_⟩
  · exact ⟨[Action.mkdirJobDir job_id,
      Action.moveAudio audio_path (jobDirPath job_id ++ "/" ++ baseName audio_path)],
      [], [], by simp [enqueue_trace_def job_id nowIso s audio_path provider hne]⟩
  · refine ⟨baseName audio_path, rfl, ?_⟩
    rw [enqueue_state_audioFiles job_id nowIso s audio_path provider hne]
    exact List.mem_cons_self _ _
  · rw [enqueue_state_audioFiles job_id nowIso s audio_path provider hne]
    intro hmem
    rcases List.mem_cons.mp hmem with hmem | hmem
    · exact hne hmem
    · exact absurd (List.mem_filter.mp hmem).2 (by simp)
  · exact enqueue_state_queue job_id nowIso s audio_path provider

/-- Witness for C2 at a concrete enqueue call: an upload staged under
`_incoming` is enqueued as job `2024-01-01_00-00-00`. -/
theorem enqueue_spec_witness :
    ("recordings/_incoming/u.wav" ≠
        jobDirPath "2024-01-01_00-00-00" ++ "/" ++ baseName "recordings/_incoming/u.wav") ∧
    ((∃ pre mid post,
        (enqueue "2024-01-01_00-00-00" "2024-01-01T00:00:00"
            { audioFiles := ["recordings/_incoming/u.wav"] }
            "recordings/_incoming/u.wav" "gemini").trace =
          pre ++ [Action.writeRecord "2024-01-01_00-00-00"] ++ mid ++
            [Action.pushQueue "2024-01-01_00-00-00"] ++ post) ∧
      read_job "t0" (enqueue "2024-01-01_00-00-00" "2024-01-01T00:00:00"
            { audioFiles := ["recordings/_incoming/u.wav"] }
            "recordings/_incoming/u.wav" "gemini").state "2024-01-01_00-00-00" =
        some (enqueue "2024-01-01_00-00-00" "2024-01-01T00:00:00"
            { audioFiles := ["recordings/_incoming/u.wav"] }
            "recordings/_incoming/u.wav" "gemini").record ∧
      (enqueue "2024-01-01_00-00-00" "2024-01-01T00:00:00"
            { audioFiles := ["recordings/_incoming/u.wav"] }
            "recordings/_incoming/u.wav" "gemini").record.status = .pending ∧
      (∃ fname,
        (enqueue "2024-01-01_00-00-00" "2024-01-01T00:00:00"
            { audioFiles := ["recordings/_incoming/u.wav"] }
            "recordings/_incoming/u.wav" "gemini").record.audio_path =
          some (jobDirPath "2024-01-01_00-00-00" ++ "/" ++ fname) ∧
        (jobDirPath "2024-01-01_00-00-00" ++ "/" ++ fname) ∈
          (enqueue "2024-01-01_00-00-00" "2024-01-01T00:00:00"
              { audioFiles := ["recordings/_incoming/u.wav"] }
              "recordings/_incoming/u.wav" "gemini").state.audioFiles) ∧
      "recordings/_incoming/u.wav" ∉
        (enqueue "2024-01-01_00-00-00" "2024-01-01T00:00:00"
            { audioFiles := ["recordings/_incoming/u.wav"] }
            "recordings/_incoming/u.wav" "gemini").state.audioFiles ∧
      (enqueue "2024-01-01_00-00-00" "2024-01-01T00:00:00"
            { audioFiles := ["recordings/_incoming/u.wav"] }
            "recordings/_incoming/u.wav" "gemini").state.queue =
        ({ audioFiles := ["recordings/_incoming/u.wav"] } : SysState).queue ++
          ["2024-01-01_00-00-00"]) :=
  ⟨by decide,
   enqueue_spec "2024-01-01_00-00-00" "2024-01-01T00:00:00" "t0"
     { audioFiles := ["recordings/_incoming/u.wav"] }
     "recordings/_incoming/u.wav" "gemini" (by decide)⟩

/-! ## C8: the record write is an in-place truncate-and-write -/

/-- C8 counterexample: the `_write_job` event trace contains no rename onto
the record file, and a reader interleaving between its two events observes
the empty, truncated file — neither the previous record content nor the
new one.  This refutes temp-file-and-rename atomicity at a concrete
write. -/
theorem write_job_not_atomic :
    (¬ renamesOnto (writeJobFsTrace "2024-01-01_00-00-00" "record-v2")
        (jobMetaPath "2024-01-01_00-00-00")) ∧
    "" ∈ observeStates (jobMetaPath "2024-01-01_00-00-00") "record-v1"
        (writeJobFsTrace "2024-01-01_00-00-00" "record-v2") ∧
    "" ≠ "record-v1" ∧ "" ≠ "record-v2" := by
  refine ⟨?_, by decide, by decide, by decide⟩
  rintro ⟨tmp, hmem⟩
  simp [writeJobFsTrace] at hmem

/-- C8 amended: `_write_job` overwrites the record file in place — it
truncates via `open(path, "w")` and then writes the serialized record, with
no temporary file and no rename — so a reader concurrent with the write can
observe a partially-written (empty) record file. -/
theorem write_job_truncate_in_place (id content old : String)
    (hold : old ≠ "") (hcontent : content ≠ "") :
    writeJobFsTrace id content =
      [FsEvent.truncate (jobMetaPath id), FsEvent.writeData (jobMetaPath id) content] ∧
    (¬ renamesOnto (writeJobFsTrace id content) (jobMetaPath id)) ∧
    observeStates (jobMetaPath id) old (writeJobFsTrace id content) =
      [old, "", content] ∧
    "" ∈ observeStates (jobMetaPath id) old (writeJobFsTrace id content) ∧
    "" ≠ old ∧ "" ≠ content := by
  refine ⟨rfl, ?_, ?_, ?_, Ne.symm hold, Ne.symm hcontent⟩
  · rintro ⟨tmp, hmem⟩
    simp [writeJobFsTrace] at hmem
  · simp [writeJobFsTrace, observeStates, applyFsEvent, String.empty_append]
  · simp [writeJobFsTrace, observeStates, applyFsEvent]

/-- Witness for C8's amended statement at a concrete write. -/
theorem write_job_truncate_in_place_witness :
    (("record-v1" : String) ≠ "" ∧ ("record-v2" : String) ≠ "") ∧
    (writeJobFsTrace "j" "record-v2" =
      [FsEvent.truncate (jobMetaPath "j"), FsEvent.writeData (jobMetaPath "j") "record-v2"] ∧
    (¬ renamesOnto (writeJobFsTrace "j" "record-v2") (jobMetaPath "j")) ∧
    observeStates (jobMetaPath "j") "record-v1" (writeJobFsTrace "j" "record-v2") =
      ["record-v1", "", "record-v2"] ∧
    "" ∈ observeStates (jobMetaPath "j") "record-v1" (writeJobFsTrace "j" "record-v2") ∧
    "" ≠ "record-v1" ∧ "" ≠ "record-v2") :=
  ⟨⟨by decide, by decide⟩,
   write_job_truncate_in_place "j" "record-v2" "record-v1" (by decide) (by decide)⟩

/-! ## C10: empty or whitespace-only queries -/

/-- C10: for every query that is empty or whitespace-only, `search` returns
the empty list; the result is `[]` for every store state whatsoever, so no
job record or result file influences (or needs to be read for) the
answer — mirroring the source's early return before the job scan. -/
theorem search_empty_query (now query : String) (s : SysState)
    (h : pyStrip query = "") : search now s query = [] := by
  unfold search
  rw [h]
  rfl

/-- Witness for C10: a whitespace-only query on a non-empty store. -/
theorem search_empty_query_witness :
    pyStrip " \t " = "" ∧ search "t0" legacyState " \t " = [] :=
  ⟨by decide, search_empty_query "t0" " \t " legacyState (by decide)⟩

/-! ## Listing and recovery lemmas -/

theorem dirLookup_of_mem (dirs : List (String × JobDir)) (id : String)
    (d : JobDir) (hnd : (dirs.map Prod.fst).Nodup) (hm : (id, d) ∈ dirs) :
    dirLookup dirs id = some d := by
  induction dirs with
  | nil => cases hm
  | cons p rest ih =>
    rw [List.map_cons, List.nodup_cons] at hnd
    rcases List.mem_cons.mp hm with h | h
    · rw [← h, dirLookup_cons, if_pos rfl]
    · have hne : p.1 ≠ id := by
        intro hh
        exact hnd.1 (hh ▸ List.mem_map.mpr ⟨(id, d), h, rfl⟩)
      rw [dirLookup_cons, if_neg hne]
      exact ih hnd.2 h

theorem mem_of_dirLookup (dirs : List (String × JobDir)) (id : String)
    (d : JobDir) (h : dirLookup dirs id = some d) : (id, d) ∈ dirs := by
  induction dirs with
  | nil => simp [dirLookup_nil] at h
  | cons p rest ih =>
    rw [dirLookup_cons] at h
    by_cases hp : p.1 = id
    · rw [if_pos hp] at h
      have hpe : p = (id, d) := by
        rcases p with ⟨a, b⟩
        simp only [Option.some.injEq] at h
        simp only at hp
        rw [hp, h]
      rw [hpe]
      exact List.mem_cons_self _ _
    · rw [if_neg hp] at h
      exact List.mem_cons_of_mem _ (ih h)

/-- The per-directory reader used by `_list_jobs`. -/
def listEntry (now : String) (p : String × JobDir) : Option JobRecord :=
  match p.2.meta with
  | none => none
  | some data => readJobData now p.1 data

theorem mem_insertDesc (p x : String × JobDir) (l : List (String × JobDir)) :
    x ∈ insertDesc p l ↔ x = p ∨ x ∈ l := by
  induction l with
  | nil => simp [insertDesc]
  | cons q rest ih =>
    unfold insertDesc
    by_cases h : q.1.data ≤ p.1.data
    · simp [h]
    · rw [if_neg h]
      simp only [List.mem_cons, ih]
      tauto

theorem insertDesc_perm (p : String × JobDir) (l : List (String × JobDir)) :
    (insertDesc p l).Perm (p :: l) := by
  induction l with
  | nil => exact List.Perm.refl _
  | cons q rest ih =>
    unfold insertDesc
    by_cases h : q.1.data ≤ p.1.data
    · rw [if_pos h]
    · rw [if_neg h]
      exact (ih.cons q).trans (List.Perm.swap p q rest)

theorem sortDirsDesc_perm (l : List (String × JobDir)) :
    (sortDirsDesc l).Perm l := by
  induction l with
  | nil => exact List.Perm.refl _
  | cons p rest ih =>
    exact (insertDesc_perm p (sortDirsDesc rest)).trans (ih.cons p)

theorem mem_sortDirsDesc (x : String × JobDir) (l : List (String × JobDir)) :
    x ∈ sortDirsDesc l ↔ x ∈ l := (sortDirsDesc_perm l).mem_iff

theorem pairwise_insertDesc (p : String × JobDir) (l : List (String × JobDir))
    (hl : l.Pairwise (fun a b => b.1.data ≤ a.1.data)) :
    (insertDesc p l).Pairwise (fun a b => b.1.data ≤ a.1.data) := by
  induction l with
  | nil => simp [insertDesc]
  | cons q rest ih =>
    rw [List.pairwise_cons] at hl
    unfold insertDesc
    by_cases h : q.1.data ≤ p.1.data
    · rw [if_pos h]
      refine List.Pairwise.cons ?_ (List.Pairwise.cons hl.1 hl.2)
      intro x hx
      rcases List.mem_cons.mp hx with rfl | hx
      · exact h
      · exact le_trans (hl.1 x hx) h
    · rw [if_neg h]
      refine List.Pairwise.cons ?_ (ih hl.2)
      intro x hx
      rcases (mem_insertDesc p x rest).mp hx with rfl | hx
      · exact le_of_not_le h
      · exact hl.1 x hx

theorem sortDirsDesc_pairwise (l : List (String × JobDir)) :
    (sortDirsDesc l).Pairwise (fun a b => b.1.data ≤ a.1.data) := by
  induction l with
  | nil => exact List.Pairwise.nil
  | cons p rest ih => exact pairwise_insertDesc p _ ih

theorem list_jobs_eq (now : String) (s : SysState) :
    list_jobs now s = (sortDirsDesc s.dirs).filterMap (listEntry now) := rfl

theorem listEntry_id (now : String) (p : String × JobDir) (r : JobRecord)
    (h : listEntry now p = some r) : r.id = p.1 := by
  unfold listEntry at h
  cases hm : p.2.meta with
  | none => rw [hm] at h; exact absurd h (by simp)
  | some data => rw [hm] at h; exact readJobData_id now p.1 data r h

theorem mem_list_jobs (now : String) (s : SysState) (r : JobRecord)
    (hnd : (s.dirs.map Prod.fst).Nodup) :
    r ∈ list_jobs now s ↔ read_job now s r.id = some r := by
  rw [list_jobs_eq]
  constructor
  · intro hr
    rcases List.mem_filterMap.mp hr with ⟨p, hp, hfp⟩
    rw [mem_sortDirsDesc] at hp
    have hid : r.id = p.1 := listEntry_id now p r hfp
    have hlk : dirLookup s.dirs p.1 = some p.2 := by
      rcases p with ⟨a, b⟩
      exact dirLookup_of_mem s.dirs a b hnd hp
    rw [read_job_eq]
    unfold dirMeta
    rw [hid, hlk]
    unfold listEntry at hfp
    cases hm : p.2.meta with
    | none => rw [hm] at hfp; exact absurd hfp (by simp)
    | some data => rw [hm] at hfp; simpa [hm] using hfp
  · intro hr
    have hr' := hr
    rw [read_job_eq] at hr'
    unfold dirMeta at hr'
    cases hlk : dirLookup s.dirs r.id with
    | none => rw [hlk] at hr'; exact absurd hr' (by simp)
    | some d =>
      rw [hlk] at hr'
      simp only [Option.some_bind] at hr'
      refine List.mem_filterMap.mpr ⟨(r.id, d),
        (mem_sortDirsDesc _ _).mpr (mem_of_dirLookup s.dirs r.id d hlk), ?_⟩
      unfold listEntry
      dsimp only
      cases hm : d.meta with
      | none => rw [hm] at hr'; exact absurd hr' (by simp)
      | some data =>
        rw [hm] at hr'
        simpa using hr'

theorem filterMap_map_id_sublist (now : String) (l : List (String × JobDir)) :
    ((l.filterMap (listEntry now)).map JobRecord.id).Sublist (l.map Prod.fst) := by
  induction l with
  | nil => simp
  | cons p rest ih =>
    rw [List.filterMap_cons]
    cases hp : listEntry now p with
    | none =>
      rw [List.map_cons]
      exact ih.cons p.1
    | some r =>
      rw [List.map_cons, List.map_cons, listEntry_id now p r hp]
      exact ih.cons₂ p.1

theorem recovered_ids_sublist_sorted_keys (now : String) (s : SysState) :
    (((list_jobs now s).filter
        (fun j => decide (j.status = .pending ∨ j.status = .processing))).map
      JobRecord.id).Sublist ((sortDirsDesc s.dirs).map Prod.fst) := by
  have h1 : (((list_jobs now s).filter
      (fun j => decide (j.status = .pending ∨ j.status = .processing))).map
        JobRecord.id).Sublist ((list_jobs now s).map JobRecord.id) :=
    ((list_jobs now s).filter_sublist).map JobRecord.id
  have h2 := filterMap_map_id_sublist now (sortDirsDesc s.dirs)
  rw [← list_jobs_eq] at h2
  exact h1.trans h2

theorem sorted_keys_pairwise (s : SysState) :
    ((sortDirsDesc s.dirs).map Prod.fst).Pairwise (fun a b => b.data ≤ a.data) := by
  rw [List.pairwise_map]
  exact sortDirsDesc_pairwise s.dirs

theorem sorted_keys_nodup (s : SysState) (hnd : (s.dirs.map Prod.fst).Nodup) :
    ((sortDirsDesc s.dirs).map Prod.fst).Nodup :=
  (((sortDirsDesc_perm s.dirs).map Prod.fst).nodup_iff).mpr hnd

/-! ## C3: startup recovery -/

/-- C3: starting from an empty dispatch queue, `start` pushes exactly the
ids of stored jobs whose persisted status is `pending` or `processing` —
`completed` and `failed` jobs are never re-queued — and pushes them in
strictly descending id (directory-name) order, most recent job first,
reusing the store's default listing order.  Ids are compared
lexicographically by code point, as Python compares strings. -/
theorem start_recovery_spec (now : String) (s : SysState)
    (hq : s.queue = []) (hnd : (s.dirs.map Prod.fst).Nodup) :
    (∀ id, id ∈ (start_recovery now s).queue ↔
      ∃ r, read_job now s id = some r ∧
        (r.status = .pending ∨ r.status = .processing)) ∧
    (∀ id r, read_job now s id = some r →
      (r.status = .completed ∨ r.status = .failed) →
      id ∉ (start_recovery now s).queue) ∧
    (start_recovery now s).queue.Pairwise (fun a b => b.data < a.data) := by
  have hqueue : (start_recovery now s).queue =
      ((list_jobs now s).filter
        (fun j => decide (j.status = .pending ∨ j.status = .processing))).map
        JobRecord.id := by
    unfold start_recovery
    rw [hq]
    rfl
  have hmem : ∀ id, id ∈ (start_recovery now s).queue ↔
      ∃ r, read_job now s id = some r ∧
        (r.status = .pending ∨ r.status = .processing) := by
    intro id
    rw [hqueue]
    constructor
    · intro hmem
      rcases List.mem_map.mp hmem with ⟨r, hrf, hid⟩
      have hrl := List.mem_filter.mp hrf
      have hr : read_job now s r.id = some r := (mem_list_jobs now s r hnd).mp hrl.1
      exact ⟨r, hid ▸ hr, of_decide_eq_true hrl.2⟩
    · rintro ⟨r, hr, hst⟩
      have hid : r.id = id := read_job_id now s id r hr
      refine List.mem_map.mpr ⟨r, List.mem_filter.mpr
        ⟨(mem_list_jobs now s r hnd).mpr (by rw [hid]; exact hr),
         decide_eq_true hst⟩, hid⟩
  refine ⟨hmem, ?_, ?_⟩
  · intro id r hr hterm hin
    rcases (hmem id).mp hin with ⟨r', hr', hst'⟩
    rw [hr] at hr'
    cases hr'
    rcases hterm with h | h <;> rcases hst' with h' | h' <;>
      rw [h] at h' <;> exact absurd h' (by simp)
  · rw [hqueue]
    have hsub := recovered_ids_sublist_sorted_keys now s
    have hpw := List.Pairwise.sublist hsub (sorted_keys_pairwise s)
    have hnd' := List.Nodup.sublist hsub (sorted_keys_nodup s hnd)
    refine (hpw.and hnd').imp (fun hab => ?_)
    refine lt_of_le_of_ne hab.1 (fun hh => hab.2 ?_)
    exact congrArg String.mk hh.symm

/-- A store with one job in each status, for exercising recovery. -/
def recoveryState : SysState :=
  { dirs := [
      ("2024-01-01_00-00-01",
        { meta := some { status := some "pending", created_at := some "t1"
                         updated_at := some "t1", audio_path := some "a1" } }),
      ("2024-01-01_00-00-04",
        { meta := some { status := some "failed", created_at := some "t4"
                         updated_at := some "t4", audio_path := some "a4"
                         error := some "boom" } }),
      ("2024-01-01_00-00-02",
        { meta := some { status := some "processing", created_at := some "t2"
                         updated_at := some "t2", audio_path := some "a2" } }),
      ("2024-01-01_00-00-03",
        { meta := some { status := some "completed", created_at := some "t3"
                         updated_at := some "t3", audio_path := some "a3"
                         result_path := some "r3", title := some "T3"
                         summary := some "S3" } })] }

/-- Witness for C3 on a concrete store holding one job of each status:
recovery queues exactly the pending and the processing job, most recent
first. -/
theorem start_recovery_spec_witness :
    (recoveryState.queue = [] ∧ (recoveryState.dirs.map Prod.fst).Nodup) ∧
    (start_recovery "t0" recoveryState).queue =
      ["2024-01-01_00-00-02", "2024-01-01_00-00-01"] ∧
    ("2024-01-01_00-00-02" ∈ (start_recovery "t0" recoveryState).queue ↔
      ∃ r, read_job "t0" recoveryState "2024-01-01_00-00-02" = some r ∧
        (r.status = .pending ∨ r.status = .processing)) ∧
    (start_recovery "t0" recoveryState).queue.Pairwise
      (fun a b => b.data < a.data) :=
  ⟨⟨rfl, by decide⟩, by decide,
   (start_recovery_spec "t0" recoveryState rfl (by decide)).1 "2024-01-01_00-00-02",
   (start_recovery_spec "t0" recoveryState rfl (by decide)).2.2⟩

/-! ## C4: transcription failure is contained in the worker loop -/

theorem read_job_set_queue (now : String) (s : SysState) (q : List String)
    (id : String) : read_job now { s with queue := q } id = read_job now s id := rfl

theorem write_job_queue (s : SysState) (r : JobRecord) :
    (write_job s r).queue = s.queue := rfl

/-- C4: when the Transcription Service call for the job at the head of the
queue fails with any error, the worker persists the record with status
`failed` and the error message in `error` (other fields unchanged), pops
the id, and the loop — a total state transformation — continues with the
next queued id. -/
theorem worker_failure_spec (now msg : String) (s : SysState) (job_id : String)
    (rest : List String) (r : JobRecord)
    (transcribe : Option String → Except String GeminiTranscriptionResponse)
    (hq : s.queue = job_id :: rest)
    (hr : read_job now s job_id = some r)
    (hf : transcribe r.audio_path = .error msg) :
    read_job now (workerStep now transcribe s) job_id =
      some { r with status := .failed, error := some msg, updated_at := now } ∧
    (workerStep now transcribe s).queue = rest ∧
    (∀ n, workerRun now transcribe s (n + 1) =
      workerRun now transcribe (workerStep now transcribe s) n) := by
  have hid := read_job_id now s job_id r hr
  have hstep : workerStep now transcribe s =
      write_job (write_job { s with queue := rest }
          { r with status := .processing, updated_at := now })
        { r with status := .failed, error := some msg, updated_at := now } := by
    unfold workerStep
    rw [hq]
    dsimp only
    unfold process_one
    rw [read_job_set_queue, hr]
    dsimp only
    rw [hf]
  refine ⟨?_, ?_, fun n => rfl⟩
  · rw [hstep]
    subst hid
    exact read_job_write_job_self now _ _
  · rw [hstep, write_job_queue, write_job_queue]

/-- A store holding a single pending job whose id is queued, about to be
processed. -/
def c4rec : JobRecord :=
  { id := "2024-01-01_00-00-05", status := .pending
    created_at := "2024-01-01T00:00:05", updated_at := "2024-01-01T00:00:05"
    audio_path := some "recordings/2024-01-01_00-00-05/a.wav" }

def c4state : SysState :=
  { dirs := [("2024-01-01_00-00-05", { meta := some c4rec.to_dict })]
    queue := ["2024-01-01_00-00-05"] }

/-- Witness for C4: a transcription timeout on a concrete queued job. -/
theorem worker_failure_spec_witness :
    (c4state.queue = ["2024-01-01_00-00-05"] ∧
      read_job "t1" c4state "2024-01-01_00-00-05" = some c4rec ∧
      (fun _ : Option String =>
        (.error "TranscriptionError: timeout" :
          Except String GeminiTranscriptionResponse)) c4rec.audio_path =
        .error "TranscriptionError: timeout") ∧
    (read_job "t1" (workerStep "t1"
        (fun _ => .error "TranscriptionError: timeout") c4state)
        "2024-01-01_00-00-05" =
      some { c4rec with
        status := .failed,
        error := some "TranscriptionError: timeout",
        updated_at := "t1" } ∧
    (workerStep "t1" (fun _ => .error "TranscriptionError: timeout")
        c4state).queue = [] ∧
    (∀ n, workerRun "t1" (fun _ => .error "TranscriptionError: timeout")
        c4state (n + 1) =
      workerRun "t1" (fun _ => .error "TranscriptionError: timeout")
        (workerStep "t1" (fun _ => .error "TranscriptionError: timeout") c4state) n)) :=
  ⟨⟨rfl, by decide, rfl⟩,
   worker_failure_spec "t1" "TranscriptionError: timeout" c4state
     "2024-01-01_00-00-05" [] c4rec
     (fun _ => .error "TranscriptionError: timeout") rfl (by decide) rfl⟩

/-! ## C5: delete semantics -/

theorem string_data_append (a b : String) : (a ++ b).data = a.data ++ b.data := rfl

theorem jobDirPath_startsWith (id : String) :
    strStartsWith (jobDirPath id) recordingsDir = true := by
  unfold strStartsWith jobDirPath
  rw [decide_eq_true_eq, string_data_append, string_data_append,
    List.append_assoc]
  exact List.prefix_append _ _

/-- C5 counterexample: deleting an id with no existing record is not a
no-op success — `delete_job` returns `False` and the API surfaces it as a
404 Not Found error rather than success. -/
theorem delete_absent_not_success :
    delete_job "t0" SysState.init "2024-01-01_00-00-09" =
      .ok (SysState.init, false) ∧
    api_delete_job "t0" SysState.init "2024-01-01_00-00-09" =
      .error .notFound := by
  constructor <;> rfl

/-- C5 amended: deleting a `pending` or `processing` job always fails with
the conflict error (surfaced as 409) and changes nothing; deleting a
`completed` or `failed` job succeeds, removes the job's directory, and the
job is absent from every subsequent listing; deleting an id with no
existing record returns `False`, which the API surfaces as a 404 Not Found
error (not a no-op success). -/
theorem delete_job_spec (now : String) (s : SysState) (id : String)
    (r : JobRecord) (hnd : (s.dirs.map Prod.fst).Nodup) :
    (read_job now s id = some r →
      (r.status = .pending ∨ r.status = .processing) →
      delete_job now s id = .error "Job is in progress and cannot be deleted" ∧
      api_delete_job now s id =
        .error (.conflict "Job is in progress and cannot be deleted")) ∧
    (read_job now s id = some r →
      (r.status = .completed ∨ r.status = .failed) →
      ∃ s', delete_job now s id = .ok (s', true) ∧
        dirLookup s'.dirs id = none ∧
        read_job now s' id = none ∧
        (∀ r', r' ∈ list_jobs now s' → r'.id ≠ id)) ∧
    (read_job now s id = none →
      delete_job now s id = .ok (s, false) ∧
      api_delete_job now s id = .error .notFound) := by
  refine ⟨?_, ?_, ?_⟩
  · intro hr hst
    have hdel : delete_job now s id =
        .error "Job is in progress and cannot be deleted" := by
      unfold delete_job
      rw [hr]
      dsimp only
      rw [if_pos hst]
    refine ⟨hdel, ?_⟩
    unfold api_delete_job
    rw [hdel]
  · intro hr hst
    have hnst : ¬ (r.status = .pending ∨ r.status = .processing) := by
      rcases hst with h | h <;> rw [h] <;> simp
    have hlk : (dirLookup s.dirs id).isSome := by
      rw [read_job_eq] at hr
      unfold dirMeta at hr
      cases hl : dirLookup s.dirs id with
      | none => rw [hl] at hr; exact absurd hr (by simp)
      | some d => rfl
    have hgd : get_job_dir s id = some (jobDirPath id) := by
      unfold get_job_dir
      dsimp only
      rw [jobDirPath_startsWith]
      rw [if_pos rfl, if_pos hlk]
    have hdel : delete_job now s id =
        .ok ({ s with
                dirs := removeDir s.dirs id,
                audioFiles := s.audioFiles.filter
                  (fun f => !(strStartsWith f (jobDirPath id ++ "/"))) }, true) := by
      unfold delete_job
      rw [hr]
      dsimp only
      rw [if_neg hnst, hgd]
    refine ⟨_, hdel, ?_, ?_, ?_⟩
    · exact dirLookup_removeDir_self s.dirs id
    · rw [read_job_eq]
      unfold dirMeta
      dsimp only
      rw [dirLookup_removeDir_self]
      rfl
    · intro r' hmem heq
      have hnd' : ((removeDir s.dirs id).map Prod.fst).Nodup :=
        List.Nodup.sublist ((s.dirs.filter_sublist).map Prod.fst) hnd
      have hrd :
          read_job now { s with
            dirs := removeDir s.dirs id,
            audioFiles := s.audioFiles.filter
              (fun f => !(strStartsWith f (jobDirPath id ++ "/"))) } r'.id =
            some r' :=
        (mem_list_jobs now _ r' hnd').mp hmem
      rw [heq, read_job_eq] at hrd
      unfold dirMeta at hrd
      dsimp only at hrd
      rw [dirLookup_removeDir_self] at hrd
      exact absurd hrd (by simp)
  · intro hr
    have hdel : delete_job now s id = .ok (s, false) := by
      unfold delete_job
      rw [hr]
    refine ⟨hdel, ?_⟩
    unfold api_delete_job
    rw [hdel]

/-- Witness for C5's amended statement, on the store holding one job of
each status: deleting the processing job conflicts, deleting the failed
job succeeds and removes it, deleting a missing id yields 404. -/
theorem delete_job_spec_witness :
    ((recoveryState.dirs.map Prod.fst).Nodup ∧
      read_job "t0" recoveryState "2024-01-01_00-00-02" =
        some { id := "2024-01-01_00-00-02", status := .processing
               created_at := "t2", updated_at := "t2"
               audio_path := some "a2" } ∧
      read_job "t0" recoveryState "2024-01-01_00-00-04" =
        some { id := "2024-01-01_00-00-04", status := .failed
               created_at := "t4", updated_at := "t4"
               audio_path := some "a4", error := some "boom" } ∧
      read_job "t0" recoveryState "missing" = none) ∧
    (delete_job "t0" recoveryState "2024-01-01_00-00-02" =
        .error "Job is in progress and cannot be deleted" ∧
      api_delete_job "t0" recoveryState "2024-01-01_00-00-02" =
        .error (.conflict "Job is in progress and cannot be deleted")) ∧
    (∃ s', delete_job "t0" recoveryState "2024-01-01_00-00-04" = .ok (s', true) ∧
      dirLookup s'.dirs "2024-01-01_00-00-04" = none ∧
      read_job "t0" s' "2024-01-01_00-00-04" = none ∧
      (∀ r', r' ∈ list_jobs "t0" s' → r'.id ≠ "2024-01-01_00-00-04")) ∧
    (delete_job "t0" recoveryState "missing" = .ok (recoveryState, false) ∧
      api_delete_job "t0" recoveryState "missing" = .error .notFound) :=
  ⟨⟨by decide, by decide, by decide, by decide⟩,
   (delete_job_spec "t0" recoveryState "2024-01-01_00-00-02"
       { id := "2024-01-01_00-00-02", status := .processing
         created_at := "t2", updated_at := "t2", audio_path := some "a2" }
       (by decide)).1 (by decide) (by decide),
   (delete_job_spec "t0" recoveryState "2024-01-01_00-00-04"
       { id := "2024-01-01_00-00-04", status := .failed
         created_at := "t4", updated_at := "t4", audio_path := some "a4"
         error := some "boom" }
       (by decide)).2.1 (by decide) (by decide),
   (delete_job_spec "t0" recoveryState "missing"
       { id := "x", status := .pending, created_at := "t", updated_at := "t" }
       (by decide)).2.2 (by decide)⟩

/-! ## C7: search semantics -/

/-- The claim-side match predicate: the query occurs (as a code-point
substring) in the lowered title, in the lowered summary or, failing those,
in some transcript segment's lowered content. -/
def resultMatches (q : String) (data : ResultData) : Prop :=
  q.data <:+: (strLower (data.title.getD "")).data ∨
  q.data <:+: (strLower (data.summary.getD "")).data ∨
  ∃ seg ∈ data.speech_segments.getD [],
    q.data <:+: (strLower (seg.content.getD "")).data

theorem searchJob_eq_some (q : String) (s : SysState) (job : JobRecord)
    (e : SearchEntry) :
    searchJob q s job = some e ↔
      ∃ data, read_job_result s job.id = some data ∧ resultMatches q data ∧
        e = { job_id := job.id, title := data.title, summary := data.summary } := by
  unfold searchJob
  cases hres : read_job_result s job.id with
  | none => simp
  | some data =>
    dsimp only
    have hb : ((if strContains (strLower (data.title.getD "")) q ||
            strContains (strLower (data.summary.getD "")) q then true
          else segMatch q (data.speech_segments.getD [])) = true) ↔
        resultMatches q data := by
      constructor
      · intro h
        split at h
        · next hcond =>
          have hcond' : strContains (strLower (data.title.getD "")) q = true ∨
              strContains (strLower (data.summary.getD "")) q = true := by
            simpa using hcond
          rcases hcond' with h' | h'
          · exact Or.inl (of_decide_eq_true h')
          · exact Or.inr (Or.inl (of_decide_eq_true h'))
        · unfold segMatch at h
          rcases List.any_eq_true.mp h with ⟨seg, hseg, hc⟩
          exact Or.inr (Or.inr ⟨seg, hseg, of_decide_eq_true hc⟩)
      · intro h
        rcases h with h | h | ⟨seg, hseg, hc⟩
        · rw [if_pos (show (strContains (strLower (data.title.getD "")) q ||
              strContains (strLower (data.summary.getD "")) q) = true by
                simp [strContains, h])]
        · rw [if_pos (show (strContains (strLower (data.title.getD "")) q ||
              strContains (strLower (data.summary.getD "")) q) = true by
                simp [strContains, h])]
        · by_cases hcond : (strContains (strLower (data.title.getD "")) q ||
              strContains (strLower (data.summary.getD "")) q) = true
          · rw [if_pos hcond]
          · rw [if_neg hcond]
            unfold segMatch
            exact List.any_eq_true.mpr ⟨seg, hseg, decide_eq_true hc⟩
    by_cases hm : (if strContains (strLower (data.title.getD "")) q ||
          strContains (strLower (data.summary.getD "")) q then true
        else segMatch q (data.speech_segments.getD [])) = true
    · rw [if_pos hm]
      constructor
      · intro h
        injection h with h'
        exact ⟨data, rfl, hb.mp hm, h'.symm⟩
      · rintro ⟨data', hd, hmatch, he⟩
        injection hd with hd'
        subst hd'
        rw [he]
    · rw [if_neg hm]
      constructor
      · intro h
        exact absurd h (by simp)
      · rintro ⟨data', hd, hmatch, he⟩
        injection hd with hd'
        subst hd'
        exact absurd (hb.mpr hmatch) hm

theorem searchJob_id (q : String) (s : SysState) (job : JobRecord)
    (e : SearchEntry) (h : searchJob q s job = some e) : e.job_id = job.id := by
  rcases (searchJob_eq_some q s job e).mp h with ⟨data, _, _, he⟩
  rw [he]

theorem search_ids_sublist (q : String) (s : SysState) (l : List JobRecord) :
    ((l.filterMap (searchJob q s)).map SearchEntry.job_id).Sublist
      (l.map JobRecord.id) := by
  induction l with
  | nil => simp
  | cons p rest ih =>
    rw [List.filterMap_cons]
    cases hp : searchJob q s p with
    | none => rw [List.map_cons]; exact ih.cons p.id
    | some e =>
      rw [List.map_cons, List.map_cons, searchJob_id q s p e hp]
      exact ih.cons₂ p.id

theorem list_jobs_ids_nodup (now : String) (s : SysState)
    (hnd : (s.dirs.map Prod.fst).Nodup) :
    ((list_jobs now s).map JobRecord.id).Nodup := by
  have h := filterMap_map_id_sublist now (sortDirsDesc s.dirs)
  rw [← list_jobs_eq] at h
  exact List.Nodup.sublist h (sorted_keys_nodup s hnd)

/-- C7 amended: for every query that is non-empty after stripping
whitespace, `search` returns exactly one lightweight entry (job id, title,
summary) per listed job that has a readable transcription result and whose
lowered title or summary — or, failing those, some transcript segment's
lowered content — contains the stripped, lowered query; jobs with no
matching content are excluded. -/
theorem search_spec (now query : String) (s : SysState)
    (hq : strLower (pyStrip query) ≠ "")
    (hnd : (s.dirs.map Prod.fst).Nodup) :
    (∀ e, e ∈ search now s query ↔
      ∃ r, r ∈ list_jobs now s ∧
        ∃ data, read_job_result s r.id = some data ∧
          resultMatches (strLower (pyStrip query)) data ∧
          e = { job_id := r.id, title := data.title, summary := data.summary }) ∧
    ((search now s query).map SearchEntry.job_id).Nodup := by
  have hsearch : search now s query =
      (list_jobs now s).filterMap (searchJob (strLower (pyStrip query)) s) := by
    unfold search
    dsimp only
    rw [if_neg hq]
  constructor
  · intro e
    rw [hsearch, List.mem_filterMap]
    constructor
    · rintro ⟨r, hr, hsj⟩
      exact ⟨r, hr, (searchJob_eq_some _ s r e).mp hsj⟩
    · rintro ⟨r, hr, hdata⟩
      exact ⟨r, hr, (searchJob_eq_some _ s r e).mpr hdata⟩
  · rw [hsearch]
    exact List.Nodup.sublist (search_ids_sublist _ s (list_jobs now s))
      (list_jobs_ids_nodup now s hnd)

/-- Transcription result of a job whose segment contains "Hello World". -/
def helloData : ResultData :=
  { title := some "Greeting", summary := some "Notes"
    speech_segments := some [{ content := some "Hello World, how are you"
                               start_time := some "0.000s"
                               end_time := some "2.000s"
                               speaker := some "spk_0" }] }

/-- Transcription result of a job with no occurrence of "hello"; its
summary does contain a space character. -/
def otherData : ResultData :=
  { title := some "Standup"
    summary := some "Nothing of note"
    speech_segments := some [{ content := some "irrelevant"
                               start_time := some "0.000s"
                               end_time := some "1.000s"
                               speaker := some "spk_0" }] }

/-- Store with two completed jobs carrying the two results above. -/
def c7state : SysState :=
  { dirs := [
      ("2024-01-01_00-00-06",
        { meta := some { status := some "completed", created_at := some "t6"
                         updated_at := some "t6", audio_path := some "a6"
                         result_path := some "p6", title := some "Greeting"
                         summary := some "Notes" }
          result := some helloData }),
      ("2024-01-01_00-00-07",
        { meta := some { status := some "completed", created_at := some "t7"
                         updated_at := some "t7", audio_path := some "a7"
                         result_path := some "p7", title := some "Standup"
                         summary := some "Nothing of note" }
          result := some otherData })] }

/-- C7 counterexample: the non-empty query `" "` is, per the claim, a
case-insensitive substring of the second job's summary `"Nothing of
note"`, and that job has a readable transcription result — yet `search`
returns the empty list, because the source strips the query before
matching.  So the claim, quantified over every non-empty query string,
fails at `" "`. -/
theorem search_whitespace_counterexample :
    (" " : String) ≠ "" ∧
    read_job_result c7state "2024-01-01_00-00-07" = some otherData ∧
    (strLower " ").data <:+: (strLower (otherData.summary.getD "")).data ∧
    (∃ r, r ∈ list_jobs "t0" c7state ∧ r.id = "2024-01-01_00-00-07") ∧
    search "t0" c7state " " = [] := by
  refine ⟨by decide, by decide, by decide, ?_, by decide⟩
  refine ⟨{ id := "2024-01-01_00-00-07", status := .completed
            created_at := "t7", updated_at := "t7", audio_path := some "a7"
            result_path := some "p7", title := some "Standup"
            summary := some "Nothing of note" }, by decide, rfl⟩

/-- Witness for C7's amended statement: the claim's own example — the
query "hello" matches exactly the job whose segment contains "Hello
World" and excludes the job with no matching content. -/
theorem search_spec_witness :
    (strLower (pyStrip "hello") ≠ "" ∧ (c7state.dirs.map Prod.fst).Nodup) ∧
    search "t0" c7state "hello" =
      [{ job_id := "2024-01-01_00-00-06", title := some "Greeting"
         summary := some "Notes" }] ∧
    (∀ e, e ∈ search "t0" c7state "hello" ↔
      ∃ r, r ∈ list_jobs "t0" c7state ∧
        ∃ data, read_job_result c7state r.id = some data ∧
          resultMatches (strLower (pyStrip "hello")) data ∧
          e = { job_id := r.id, title := data.title, summary := data.summary }) ∧
    ((search "t0" c7state "hello").map SearchEntry.job_id).Nodup :=
  ⟨⟨by decide, by decide⟩, by decide,
   (search_spec "t0" "hello" c7state (by decide) (by decide)).1,
   (search_spec "t0" "hello" c7state (by decide) (by decide)).2⟩

/-! ## Reachable states: invariants for C6 and C1 -/

/-- The spec's record-shape invariant: the result fields are set exactly
for completed records, `error` exactly for failed records; additionally
every record carries a non-empty `audio_path` (established by `enqueue`
and preserved by every transition). -/
def RecordOK (r : JobRecord) : Prop :=
  (r.result_path.isSome ↔ r.status = .completed) ∧
  (r.title.isSome ↔ r.status = .completed) ∧
  (r.summary.isSome ↔ r.status = .completed) ∧
  (r.error.isSome ↔ r.status = .failed) ∧
  ∃ p, r.audio_path = some p ∧ p ≠ ""

/-- A stored record file is the serialization of a well-shaped record
whose id matches its directory. -/
def GoodMeta (id : String) (data : JobData) : Prop :=
  ∃ r : JobRecord, data = r.to_dict ∧ r.id = id ∧ RecordOK r

/-- A queued id denotes a stored record with status `pending`. -/
def QueuedPending (s : SysState) (id : String) : Prop :=
  ∃ (data : JobData) (r : JobRecord), dirMeta s id = some data ∧
    data = r.to_dict ∧ r.id = id ∧ r.status = .pending

/-- The system invariant maintained by every operation: every stored
record file is well shaped, and the dispatch queue holds distinct ids of
pending jobs. -/
def Inv (s : SysState) : Prop :=
  (∀ id data, dirMeta s id = some data → GoodMeta id data) ∧
  s.queue.Nodup ∧
  (∀ id, id ∈ s.queue → QueuedPending s id)

/-- States reachable from the empty store by the public operations:
enqueue (with a fresh timestamp id — the spec treats id collision under
same-second enqueues as an accepted limitation and assumes one record per
id), one worker-loop iteration, the retry endpoint, and delete. -/
inductive Reach : SysState → Prop where
  | init : Reach SysState.init
  | enqueue (s : SysState) (id nowIso audio provider : String) :
      Reach s → dirLookup s.dirs id = none →
      Reach (enqueue id nowIso s audio provider).state
  | worker (s : SysState) (now : String)
      (transcribe : Option String → Except String GeminiTranscriptionResponse) :
      Reach s → Reach (workerStep now transcribe s)
  | retry (s s' : SysState) (now id : String) (r : JobRecord) :
      Reach s → api_retry_job now s id = .ok (s', r) → Reach s'
  | delete (s s' : SysState) (now id : String) (b : Bool) :
      Reach s → delete_job now s id = .ok (s', b) → Reach s'

theorem to_dict_inj_of_id (r r' : JobRecord) (h : r.to_dict = r'.to_dict)
    (hid : r.id = r'.id) : r = r' := by
  have h1 := readJobData_to_dict "" r.id r
  have h2 := readJobData_to_dict "" r.id r'
  rw [h] at h1
  rw [h1] at h2
  injection h2 with h2'
  have h3 : r = { r' with id := r.id } := h2'
  rw [hid] at h3
  exact h3

theorem status_value_failed (st : JobStatus) :
    st.value = "failed" ↔ st = .failed := by
  cases st <;> simp [JobStatus.value]

theorem dest_ne_empty (id fname : String) :
    jobDirPath id ++ "/" ++ fname ≠ "" := by
  intro h
  have h' := congrArg String.data h
  rw [string_data_append, string_data_append] at h'
  unfold jobDirPath recordingsDir at h'
  rw [string_data_append, string_data_append] at h'
  simp at h'

theorem dirMeta_set_queue (s : SysState) (q : List String) (id : String) :
    dirMeta { s with queue := q } id = dirMeta s id := rfl

theorem dirMeta_setResult (s : SysState) (id0 : String) (res : ResultData)
    (sum : String) (id : String) :
    dirMeta (setResult s id0 res sum) id = dirMeta s id := by
  unfold dirMeta setResult
  dsimp only
  induction s.dirs with
  | nil => rfl
  | cons p rest ih =>
    rw [List.map_cons, dirLookup_cons, dirLookup_cons]
    by_cases hp : p.1 = id0
    · rw [if_pos hp]
      dsimp only
      by_cases hq : p.1 = id
      · rw [if_pos hq, if_pos hq]
        rfl
      · rw [if_neg hq, if_neg hq]
        exact ih
    · rw [if_neg hp]
      by_cases hq : p.1 = id
      · rw [if_pos hq, if_pos hq]
      · rw [if_neg hq, if_neg hq]
        exact ih

theorem setResult_queue (s : SysState) (id0 : String) (res : ResultData)
    (sum : String) : (setResult s id0 res sum).queue = s.queue := rfl

theorem dirMeta_write_job (s : SysState) (r : JobRecord) (id : String) :
    dirMeta (write_job s r) id =
      if id = r.id then some r.to_dict else dirMeta s id := by
  by_cases h : id = r.id
  · rw [if_pos h, h]
    exact dirMeta_write_job_self s r
  · rw [if_neg h]
    exact dirMeta_write_job_ne s r id h

theorem goodMeta_of_record (r : JobRecord) (hok : RecordOK r) :
    GoodMeta r.id r.to_dict := ⟨r, rfl, rfl, hok⟩

theorem meta_inv_write_job (s : SysState) (r : JobRecord)
    (hmeta : ∀ id data, dirMeta s id = some data → GoodMeta id data)
    (hok : RecordOK r) :
    ∀ id data, dirMeta (write_job s r) id = some data → GoodMeta id data := by
  intro id data hd
  rw [dirMeta_write_job] at hd
  by_cases h : id = r.id
  · rw [if_pos h] at hd
    injection hd with hd'
    rw [h, ← hd']
    exact goodMeta_of_record r hok
  · rw [if_neg h] at hd
    exact hmeta id data hd

theorem queued_of_dirMeta_eq (s s' : SysState) (id : String)
    (h : dirMeta s' id = dirMeta s id) (hq : QueuedPending s id) :
    QueuedPending s' id := by
  obtain ⟨data, r, hd, hdict, hid, hst⟩ := hq
  exact ⟨data, r, by rw [h]; exact hd, hdict, hid, hst⟩

theorem queued_write_job_self (s : SysState) (r : JobRecord)
    (hp : r.status = .pending) : QueuedPending (write_job s r) r.id :=
  ⟨r.to_dict, r, dirMeta_write_job_self s r, rfl, rfl, hp⟩

/-- A queued id's stored record has status `pending`; hence an id whose
stored record is not pending is not in the queue. -/
theorem not_queued_of_status (s : SysState) (id : String) (r : JobRecord)
    (hqueued : ∀ i, i ∈ s.queue → QueuedPending s i)
    (hd : dirMeta s id = some r.to_dict) (hid : r.id = id)
    (hnp : r.status ≠ .pending) : id ∉ s.queue := by
  intro hin
  obtain ⟨data, r', hd', hdict', hid', hst'⟩ := hqueued id hin
  rw [hd] at hd'
  injection hd' with hd''
  have : r = r' := to_dict_inj_of_id r r' (by rw [hd'']; exact hdict') (by rw [hid, hid'])
  rw [this] at hnp
  exact hnp hst'

theorem enqueue_dirMeta_ne (job_id nowIso : String) (s : SysState)
    (audio provider : String) (idq : String) (hne : idq ≠ job_id) :
    dirMeta (enqueue job_id nowIso s audio provider).state idq = dirMeta s idq := by
  unfold enqueue write_job dirMeta
  dsimp only
  rw [dirLookup_setDir_ne _ _ _ _ hne]
  split
  · split
    · rfl
    · rw [dirLookup_cons, if_neg (fun hh : job_id = idq => hne hh.symm)]
  · split
    · rfl
    · rw [dirLookup_cons, if_neg (fun hh : job_id = idq => hne hh.symm)]

theorem inv_enqueue (s : SysState) (job_id nowIso audio provider : String)
    (hinv : Inv s) (hfresh : dirLookup s.dirs job_id = none) :
    Inv (enqueue job_id nowIso s audio provider).state := by
  obtain ⟨hmeta, hnodup, hqueued⟩ := hinv
  have hokrec : RecordOK (enqueue job_id nowIso s audio provider).record := by
    rw [enqueue_record_def]
    exact ⟨by simp, by simp, by simp, by simp,
      jobDirPath job_id ++ "/" ++ baseName audio, rfl, dest_ne_empty _ _⟩
  have hfreshq : job_id ∉ s.queue := by
    intro hin
    obtain ⟨data, r, hd, _, _, _⟩ := hqueued job_id hin
    unfold dirMeta at hd
    rw [hfresh] at hd
    exact absurd hd (by simp)
  refine ⟨?_, ?_, ?_⟩
  · intro idq data hd
    by_cases h : idq = job_id
    · subst h
      rw [enqueue_state_meta] at hd
      injection hd with hd'
      exact ⟨(enqueue idq nowIso s audio provider).record, hd'.symm, rfl, hokrec⟩
    · rw [enqueue_dirMeta_ne _ _ _ _ _ _ h] at hd
      exact hmeta idq data hd
  · rw [enqueue_state_queue]
    refine List.Nodup.append hnodup (List.nodup_singleton _) ?_
    intro a ha hb
    rw [List.mem_singleton] at hb
    subst hb
    exact hfreshq ha
  · intro idq hin
    rw [enqueue_state_queue] at hin
    rcases List.mem_append.mp hin with hin | hin
    · have hne : idq ≠ job_id := fun hh => hfreshq (hh ▸ hin)
      exact queued_of_dirMeta_eq _ _ _
        (enqueue_dirMeta_ne _ _ _ _ _ _ hne) (hqueued idq hin)
    · rw [List.mem_singleton] at hin
      subst hin
      exact ⟨(enqueue idq nowIso s audio provider).record.to_dict,
        (enqueue idq nowIso s audio provider).record,
        enqueue_state_meta _ _ _ _ _, rfl, rfl, rfl⟩

theorem read_job_of_meta (now : String) (s : SysState) (id : String)
    (r : JobRecord) (hd : dirMeta s id = some r.to_dict) (hid : r.id = id) :
    read_job now s id = some r := by
  rw [read_job_eq, hd]
  simp only [Option.some_bind]
  rw [readJobData_to_dict, ← hid]

theorem meta_inv_setResult (s : SysState) (id0 : String) (res : ResultData)
    (sum : String)
    (hmeta : ∀ id data, dirMeta s id = some data → GoodMeta id data) :
    ∀ id data, dirMeta (setResult s id0 res sum) id = some data →
      GoodMeta id data := by
  intro id data hd
  rw [dirMeta_setResult] at hd
  exact hmeta id data hd

theorem isSome_false_of_ne (o : Option String) (st target : JobStatus)
    (hiff : (o.isSome ↔ st = target)) (hne : st ≠ target) : o = none := by
  cases ho : o with
  | none => rfl
  | some v =>
    exact absurd (hiff.mp (by rw [ho]; rfl)) hne

theorem inv_worker (s : SysState) (now : String)
    (transcribe : Option String → Except String GeminiTranscriptionResponse)
    (hinv : Inv s) : Inv (workerStep now transcribe s) := by
  obtain ⟨hmeta, hnodup, hqueued⟩ := hinv
  unfold workerStep
  cases hq : s.queue with
  | nil => exact ⟨hmeta, hnodup, hqueued⟩
  | cons id rest =>
    dsimp only
    have hnodup' : (id :: rest).Nodup := hq ▸ hnodup
    have hidrest : id ∉ rest := (List.nodup_cons.mp hnodup').1
    have hrestnd : rest.Nodup := (List.nodup_cons.mp hnodup').2
    obtain ⟨data, r₀, hd, hdict, hid, hpend⟩ :=
      hqueued id (by rw [hq]; exact List.mem_cons_self _ _)
    subst hdict
    obtain ⟨r', hdict', hid', hok'⟩ := hmeta id r₀.to_dict hd
    have hr'r : r' = r₀ := to_dict_inj_of_id r' r₀ hdict'.symm (by rw [hid', hid])
    have hok : RecordOK r₀ := hr'r ▸ hok'
    obtain ⟨hres, htl, hsm, herr, p, hap, hpne⟩ := hok
    have hpendne : ∀ target : JobStatus, target ≠ .pending →
        r₀.status ≠ target := by
      intro target ht hcontra
      rw [hpend] at hcontra
      exact ht hcontra.symm
    have hresnone : r₀.result_path = none :=
      isSome_false_of_ne _ _ _ hres (hpendne _ (by simp))
    have htlnone : r₀.title = none :=
      isSome_false_of_ne _ _ _ htl (hpendne _ (by simp))
    have hsmnone : r₀.summary = none :=
      isSome_false_of_ne _ _ _ hsm (hpendne _ (by simp))
    have herrnone : r₀.error = none :=
      isSome_false_of_ne _ _ _ herr (hpendne _ (by simp))
    have hread : read_job now { s with queue := rest } id = some r₀ := by
      rw [read_job_set_queue]
      exact read_job_of_meta now s id r₀ hd hid
    unfold process_one
    rw [hread]
    dsimp only
    have hokrec1 : RecordOK { r₀ with status := .processing, updated_at := now } := by
      refine ⟨?_, ?_, ?_, ?_, p, hap, hpne⟩ <;>
        simp [hresnone, htlnone, hsmnone, herrnone]
    cases htr : transcribe r₀.audio_path with
    | ok result =>
      refine ⟨?_, hrestnd, ?_⟩
      · apply meta_inv_write_job
        · apply meta_inv_setResult
          apply meta_inv_write_job
          · exact hmeta
          · exact hokrec1
        · refine ⟨?_, ?_, ?_, ?_, p, hap, hpne⟩ <;> simp [herrnone]
      · intro idq hin
        have hne : idq ≠ id := fun hh => hidrest (hh ▸ hin)
        have hmeq : dirMeta (write_job (setResult (write_job
            { s with queue := rest } { r₀ with status := .processing, updated_at := now })
              id { title := some result.title, summary := some result.summary,
                   speech_segments := some (result.speech_segments.map SpeechSegment.dict) }
              ("Title: " ++ result.title ++ "\n\nSummary:\n" ++ result.summary))
            { r₀ with
              status := .completed,
              result_path := some (jobDirPath id ++ "/transcription.json"),
              title := some result.title, summary := some result.summary,
              updated_at := now }) idq = dirMeta s idq := by
          rw [dirMeta_write_job, if_neg (fun hh => hne (hh.trans hid)),
            dirMeta_setResult, dirMeta_write_job,
            if_neg (fun hh => hne (hh.trans hid)), dirMeta_set_queue]
        exact queued_of_dirMeta_eq _ _ _ hmeq
          (hqueued idq (by rw [hq]; exact List.mem_cons_of_mem _ hin))
    | error e =>
      refine ⟨?_, hrestnd, ?_⟩
      · apply meta_inv_write_job
        · apply meta_inv_write_job
          · exact hmeta
          · exact hokrec1
        · refine ⟨?_, ?_, ?_, ?_, p, hap, hpne⟩ <;>
            simp [hresnone, htlnone, hsmnone]
      · intro idq hin
        have hne : idq ≠ id := fun hh => hidrest (hh ▸ hin)
        have hmeq : dirMeta (write_job (write_job
            { s with queue := rest } { r₀ with status := .processing, updated_at := now })
            { r₀ with status := .failed, error := some e, updated_at := now }) idq =
            dirMeta s idq := by
          rw [dirMeta_write_job, if_neg (fun hh => hne (hh.trans hid)),
            dirMeta_write_job, if_neg (fun hh => hne (hh.trans hid)),
            dirMeta_set_queue]
        exact queued_of_dirMeta_eq _ _ _ hmeq
          (hqueued idq (by rw [hq]; exact List.mem_cons_of_mem _ hin))

theorem inv_read (s : SysState) (now id : String) (r : JobRecord)
    (hmeta : ∀ i d, dirMeta s i = some d → GoodMeta i d)
    (hr : read_job now s id = some r) :
    dirMeta s id = some r.to_dict ∧ r.id = id ∧ RecordOK r := by
  rw [read_job_eq] at hr
  cases hm : dirMeta s id with
  | none => rw [hm] at hr; exact absurd hr (by simp)
  | some data =>
    rw [hm] at hr
    simp only [Option.some_bind] at hr
    obtain ⟨r', hdict', hid', hok'⟩ := hmeta id data hm
    subst hdict'
    rw [readJobData_to_dict] at hr
    injection hr with hr'
    have hre : ({ r' with id := id } : JobRecord) = r' := by rw [← hid']
    rw [hre] at hr'
    subst hr'
    exact ⟨rfl, hid', hok'⟩

theorem dirMeta_removeDir_ne (s : SysState) (id idq : String)
    (af : List String) (hne : idq ≠ id) :
    dirMeta { s with dirs := removeDir s.dirs id, audioFiles := af } idq =
      dirMeta s idq := by
  unfold dirMeta
  dsimp only
  rw [dirLookup_removeDir_ne _ _ _ hne]

theorem inv_retry (s s' : SysState) (now id : String) (r : JobRecord)
    (hinv : Inv s) (heq : api_retry_job now s id = .ok (s', r)) : Inv s' := by
  obtain ⟨hmeta, hnodup, hqueued⟩ := hinv
  unfold api_retry_job at heq
  cases hread : read_job now s id with
  | none => rw [hread] at heq; exact absurd heq (by simp)
  | some rec =>
    rw [hread] at heq
    dsimp only at heq
    by_cases hsv : rec.status.value ≠ "failed"
    · rw [if_pos hsv] at heq; exact absurd heq (by simp)
    · rw [if_neg hsv] at heq
      have hfailed : rec.status = .failed :=
        (status_value_failed _).mp (not_not.mp hsv)
      by_cases hap : rec.audio_path.getD "" = ""
      · rw [if_pos hap] at heq; exact absurd heq (by simp)
      · rw [if_neg hap] at heq
        unfold retry_job at heq
        rw [hread] at heq
        dsimp only at heq
        injection heq with h1
        rw [Prod.mk.injEq] at h1
        obtain ⟨hs', hrr⟩ := h1
        subst hs'
        obtain ⟨hdm, hidrec, hokrec⟩ := inv_read s now id rec hmeta hread
        obtain ⟨hres, htl, hsm, herr, p, hpa, hpne⟩ := hokrec
        have hfailne : ∀ target : JobStatus, target ≠ .failed →
            rec.status ≠ target := by
          intro target ht hcontra
          rw [hfailed] at hcontra
          exact ht hcontra.symm
        have hresnone : rec.result_path = none :=
          isSome_false_of_ne _ _ _ hres (hfailne _ (by simp))
        have htlnone : rec.title = none :=
          isSome_false_of_ne _ _ _ htl (hfailne _ (by simp))
        have hsmnone : rec.summary = none :=
          isSome_false_of_ne _ _ _ hsm (hfailne _ (by simp))
        have hokrec1 : RecordOK
            { rec with status := .pending, error := none, updated_at := now } := by
          refine ⟨?_, ?_, ?_, ?_, p, hpa, hpne⟩ <;>
            simp [hresnone, htlnone, hsmnone]
        have hnotq : id ∉ s.queue :=
          not_queued_of_status s id rec hqueued hdm hidrec
            (hfailne _ (by simp))
        refine ⟨?_, ?_, ?_⟩
        · exact meta_inv_write_job s _ hmeta hokrec1
        · refine List.Nodup.append hnodup (List.nodup_singleton _) ?_
          intro a ha hb
          rw [List.mem_singleton] at hb
          subst hb
          exact hnotq ha
        · intro idq hin
          rcases List.mem_append.mp hin with hin | hin
          · have hne : idq ≠ id := fun hh => hnotq (hh ▸ hin)
            exact queued_of_dirMeta_eq _ _ _
              (dirMeta_write_job_ne s _ idq (fun hh => hne (hh.trans hidrec)))
              (hqueued idq hin)
          · rw [List.mem_singleton] at hin
            subst hin
            refine ⟨_, { rec with status := .pending, error := none, updated_at := now },
              ?_, rfl, hidrec, rfl⟩
            rw [← hidrec]
            exact dirMeta_write_job_self s _

theorem inv_delete (s s' : SysState) (now id : String) (b : Bool)
    (hinv : Inv s) (heq : delete_job now s id = .ok (s', b)) : Inv s' := by
  obtain ⟨hmeta, hnodup, hqueued⟩ := hinv
  unfold delete_job at heq
  cases hread : read_job now s id with
  | none =>
    rw [hread] at heq
    injection heq with h1
    rw [Prod.mk.injEq] at h1
    obtain ⟨hs', _⟩ := h1
    rw [← hs']
    exact ⟨hmeta, hnodup, hqueued⟩
  | some rec =>
    rw [hread] at heq
    dsimp only at heq
    by_cases hst : rec.status = .pending ∨ rec.status = .processing
    · rw [if_pos hst] at heq
      exact absurd heq (by simp)
    · rw [if_neg hst] at heq
      cases hgd : get_job_dir s id with
      | none =>
        rw [hgd] at heq
        injection heq with h1
        rw [Prod.mk.injEq] at h1
        obtain ⟨hs', _⟩ := h1
        rw [← hs']
        exact ⟨hmeta, hnodup, hqueued⟩
      | some d =>
        rw [hgd] at heq
        injection heq with h1
        rw [Prod.mk.injEq] at h1
        obtain ⟨hs', _⟩ := h1
        subst hs'
        obtain ⟨hdm, hidrec, hokrec⟩ := inv_read s now id rec hmeta hread
        refine ⟨?_, hnodup, ?_⟩
        · intro idq dd hd
          by_cases h : idq = id
          · subst h
            unfold dirMeta at hd
            dsimp only at hd
            rw [dirLookup_removeDir_self] at hd
            exact absurd hd (by simp)
          · rw [dirMeta_removeDir_ne s id idq _ h] at hd
            exact hmeta idq dd hd
        · intro idq hin
          have hne : idq ≠ id := by
            intro hh
            subst hh
            exact (not_queued_of_status s idq rec hqueued hdm hidrec
              (fun hp => hst (Or.inl hp))) hin
          exact queued_of_dirMeta_eq _ _ _
            (dirMeta_removeDir_ne s id idq _ hne) (hqueued idq hin)

/-- Every reachable state satisfies the system invariant. -/
theorem reach_inv (s : SysState) (h : Reach s) : Inv s := by
  induction h with
  | init =>
    refine ⟨?_, List.nodup_nil, ?_⟩
    · intro id data hd
      unfold dirMeta SysState.init at hd
      rw [dirLookup_nil] at hd
      exact absurd hd (by simp)
    · intro id h
      cases h
  | enqueue s id nowIso audio provider hr hfresh ih =>
    exact inv_enqueue s id nowIso audio provider ih hfresh
  | worker s now transcribe hr ih => exact inv_worker s now transcribe ih
  | retry s s' now id r hr heq ih => exact inv_retry s s' now id r ih heq
  | delete s s' now id b hr heq ih => exact inv_delete s s' now id b ih heq

/-! ## C6: field/status invariant of reachable records -/

/-- C6: in every state reachable by any sequence of enqueue (with fresh
timestamp ids — the spec assumes one record per id), worker processing,
retry, and delete operations, every readable record satisfies:
`result_path`, `title` and `summary` are set iff the status is
`completed`, and `error` is set iff the status is `failed`. -/
theorem record_fields_iff_status (s : SysState) (now id : String)
    (r : JobRecord) (hreach : Reach s) (hr : read_job now s id = some r) :
    (r.result_path.isSome ↔ r.status = .completed) ∧
    (r.title.isSome ↔ r.status = .completed) ∧
    (r.summary.isSome ↔ r.status = .completed) ∧
    (r.error.isSome ↔ r.status = .failed) := by
  obtain ⟨hmeta, _, _⟩ := reach_inv s hreach
  obtain ⟨_, _, hok⟩ := inv_read s now id r hmeta hr
  exact ⟨hok.1, hok.2.1, hok.2.2.1, hok.2.2.2.1⟩

/-- The Transcription Service stub that fails with a timeout. -/
def failingTranscribe : Option String → Except String GeminiTranscriptionResponse :=
  fun _ => .error "TranscriptionError: timeout"

/-- State after enqueueing one job into the empty store. -/
def c6base : SysState :=
  (enqueue "2024-01-01_00-00-08" "2024-01-01T00:00:08" SysState.init
    "recordings/_incoming/v.wav" "gemini").state

/-- State after the worker processed that job and the transcription
failed. -/
def c6state : SysState := workerStep "t8" failingTranscribe c6base

/-- The failed record stored in `c6state`. -/
def c6failedRec : JobRecord :=
  { id := "2024-01-01_00-00-08", status := .failed
    created_at := "2024-01-01T00:00:08", updated_at := "t8"
    provider := "gemini"
    audio_path := some "recordings/2024-01-01_00-00-08/v.wav"
    error := some "TranscriptionError: timeout" }

theorem c6state_reach : Reach c6state :=
  Reach.worker c6base "t8" failingTranscribe
    (Reach.enqueue SysState.init "2024-01-01_00-00-08" "2024-01-01T00:00:08"
      "recordings/_incoming/v.wav" "gemini" Reach.init rfl)

/-- Witness for C6 on the concrete reachable state with a failed job. -/
theorem record_fields_iff_status_witness :
    read_job "t9" c6state "2024-01-01_00-00-08" = some c6failedRec ∧
    ((c6failedRec.result_path.isSome ↔ c6failedRec.status = .completed) ∧
     (c6failedRec.title.isSome ↔ c6failedRec.status = .completed) ∧
     (c6failedRec.summary.isSome ↔ c6failedRec.status = .completed) ∧
     (c6failedRec.error.isSome ↔ c6failedRec.status = .failed)) :=
  ⟨by decide,
   record_fields_iff_status c6state "t9" "2024-01-01_00-00-08" c6failedRec
     c6state_reach (by decide)⟩

/-! ## C1: retry semantics -/

/-- C1: on every reachable state, retrying a job whose current status is
`failed` succeeds — the persisted and returned record has status `pending`
and `error` cleared, and the job id is pushed onto the dispatch queue
again; retrying a job whose status is not `failed` is rejected with the
invalid-state error (HTTP 400) and no state is produced, the job's record
staying unchanged.  `TranscriptionJobQueue.retry_job` itself is modelled
from the spec (only its API caller exists under the source); the guards
are those of `jobs_api.retry_job`. -/
theorem retry_spec (now : String) (s : SysState) (id : String) (r : JobRecord)
    (hreach : Reach s) (hr : read_job now s id = some r) :
    (r.status = .failed →
      ∃ s', api_retry_job now s id =
          .ok (s', { r with status := .pending, error := none, updated_at := now }) ∧
        read_job now s' id =
          some { r with status := .pending, error := none, updated_at := now } ∧
        s'.queue = s.queue ++ [id]) ∧
    (r.status ≠ .failed →
      api_retry_job now s id =
        .error (.invalidState "Only failed jobs can be retried") ∧
      read_job now s id = some r) := by
  obtain ⟨hmeta, hnodup, hqueued⟩ := reach_inv s hreach
  obtain ⟨hdm, hid, hok⟩ := inv_read s now id r hmeta hr
  constructor
  · intro hfailed
    obtain ⟨_, _, _, _, p, hpa, hpne⟩ := hok
    have hsv : ¬ r.status.value ≠ "failed" :=
      not_not.mpr ((status_value_failed _).mpr hfailed)
    have hap : ¬ r.audio_path.getD "" = "" := by
      rw [hpa]
      exact hpne
    refine ⟨{ write_job s { r with status := .pending, error := none, updated_at := now }
        with queue := s.queue ++ [id] }, ?_, ?_, rfl⟩
    · unfold api_retry_job
      rw [hr]
      dsimp only
      rw [if_neg hsv, if_neg hap]
      unfold retry_job
      rw [hr]
      rfl
    · rw [read_job_set_queue, ← hid]
      exact read_job_write_job_self now s _
  · intro hnf
    have hsv : r.status.value ≠ "failed" :=
      fun hh => hnf ((status_value_failed _).mp hh)
    refine ⟨?_, hr⟩
    unfold api_retry_job
    rw [hr]
    dsimp only
    rw [if_pos hsv]

/-- Witness for C1 on the concrete reachable state with a failed job:
retry resets it to pending with `error` cleared and re-queues the id. -/
theorem retry_spec_witness :
    (read_job "t9" c6state "2024-01-01_00-00-08" = some c6failedRec ∧
      c6failedRec.status = .failed) ∧
    (∃ s', api_retry_job "t9" c6state "2024-01-01_00-00-08" =
        .ok (s', { c6failedRec with
                   status := .pending, error := none, updated_at := "t9" }) ∧
      read_job "t9" s' "2024-01-01_00-00-08" =
        some { c6failedRec with
               status := .pending, error := none, updated_at := "t9" } ∧
      s'.queue = c6state.queue ++ ["2024-01-01_00-00-08"]) :=
  ⟨⟨by decide, by decide⟩,
   (retry_spec "t9" c6state "2024-01-01_00-00-08" c6failedRec
     c6state_reach (by decide)).1 (by decide)⟩

end Gammawave

